import Mathlib

/-!
Verification of the Rightmove address-scraping service.

Shallow embedding of the resolution pipeline (AddressResolver / Step1FriendAPI /
Step2RightmoveLandRegistry), the Land-Registry matcher of the compiled worker
(dist/steps/Step2RightmoveLandRegistry.js), and the bulk batch processor
(BulkProcessor).  Network calls are abstracted by environment parameters; the
pure control flow and data transforms are translated from the source.
-/

set_option maxRecDepth 10000

/-! ### JavaScript-style helpers shared by the embeddings

String primitives are implemented over character lists so that every
definition evaluates by kernel reduction; they model the ASCII behaviour of
the JavaScript originals. -/

/-- Whitespace characters of the JS regex class backslash-s and of
`String.prototype.trim` (ASCII part). -/
def jsSpace (c : Char) : Bool :=
  c = ' ' || c = '\t' || c = '\n' || c = '\r' || c = '\x0b' || c = '\x0c'

/-- Embedding of `String.prototype.trim`. -/
def jsTrim (s : String) : String :=
  ⟨((s.data.dropWhile jsSpace).reverse.dropWhile jsSpace).reverse⟩

/-- Embedding of `String.prototype.length` (code units; identical to the
character count on the ASCII data handled here). -/
def jsLength (s : String) : Nat :=
  s.data.length

/-- Embedding of `String.prototype.toLowerCase` (ASCII case mapping). -/
def jsToLower (s : String) : String :=
  ⟨s.data.map Char.toLower⟩

/-- Splitting loop of `String.prototype.split` with a one-character separator. -/
def splitOnCharAux (sep : Char) : List Char → List Char → List (List Char)
  | [], acc => [acc.reverse]
  | c :: rest, acc =>
    if c = sep then acc.reverse :: splitOnCharAux sep rest []
    else splitOnCharAux sep rest (c :: acc)

/-- Embedding of `String.prototype.split` with a one-character separator. -/
def jsSplit (s : String) (sep : Char) : List String :=
  (splitOnCharAux sep s.data []).map List.asString

/-- Does the word `w` occur as a prefix of `s` (character-wise)? -/
def matchesAt : List Char → List Char → Bool
  | [], _ => true
  | _ :: _, [] => false
  | a :: w, b :: s => a = b && matchesAt w s

/-- Embedding of `String.prototype.startsWith`. -/
def jsStartsWith (s pre : String) : Bool :=
  matchesAt pre.data s.data

/-- Truthiness of an optional JS string value (`undefined`/`null`/`""` are falsy). -/
def jsTruthy : Option String → Bool
  | some s => s ≠ ""
  | none => false

/-- Embedding of the JS idiom `value || fallback` on optional strings
(an empty string also selects the fallback). -/
def jsOr (o : Option String) (fallback : String) : String :=
  match o with
  | some s => if s = "" then fallback else s
  | none => fallback

/-- Embedding of JS template interpolation of a possibly-undefined string. -/
def jsInterp (o : Option String) : String :=
  match o with
  | some s => s
  | none => "undefined"

namespace Friend

/-!
Embedding of `src/pipeline/steps/Step1FriendAPI.ts`: the address heuristic
`looksLikeAddress`, the ordered field extraction `extractAddress`, and the
response processing `processResponse`.
-/

/-- Word characters of the JS regex class backslash-w: ASCII letters, digits, underscore. -/
def jsWordChar (c : Char) : Bool :=
  c.isAlphanum || c = '_'

/-- Is the position after the first `n` characters of `s` a word boundary
(end of string or a non-word character)? -/
def boundaryAfter (s : List Char) (n : Nat) : Bool :=
  match s.drop n with
  | [] => true
  | c :: _ => !jsWordChar c

/-- Does `w` match at the start of `s` ending at a word boundary? -/
def hasWordAt (w s : List Char) : Bool :=
  matchesAt w s && boundaryAfter s w.length

/-- Is the previous character (none = start of string) a word boundary? -/
def boundaryBefore : Option Char → Bool
  | none => true
  | some c => !jsWordChar c

/-- Scans `s` for an occurrence of the word `w` delimited by word boundaries,
the embedding of the JS regex `\b(w)\b` applied to the (lower-cased) text. -/
def wordOccursFrom (w : List Char) : Option Char → List Char → Bool
  | _, [] => false
  | prev, c :: rest =>
    (boundaryBefore prev && hasWordAt w (c :: rest)) || wordOccursFrom w (some c) rest

/-- Street-suffix word list of the `hasAddressWords` regex in `looksLikeAddress`. -/
def streetSuffixWords : List String :=
  ["street", "road", "avenue", "lane", "crescent", "drive", "close", "court",
   "way", "place", "square", "gardens", "park", "hill", "manor", "house",
   "flat", "apartment"]

/-- Continuation of the leading-number pattern after its first space:
further spaces, then an ASCII letter. -/
def spacesThenLetter : List Char → Bool
  | [] => false
  | c :: rest => if jsSpace c then spacesThenLetter rest else c.isAlpha

/-- Continuation of the leading-number pattern after its first digit:
further digits, then at least one space, then an ASCII letter. -/
def digitsThenSpacesLetter : List Char → Bool
  | [] => false
  | c :: rest =>
    if c.isDigit then digitsThenSpacesLetter rest
    else jsSpace c && spacesThenLetter rest

/-- Embedding of the JS regex test for a leading number followed by a street
name: one or more digits, one or more spaces, then a letter, anchored at the
start of the string. -/
def hasCommonAddressPattern (s : List Char) : Bool :=
  match s with
  | [] => false
  | c :: rest => c.isDigit && digitsThenSpacesLetter rest

/-- Embedding of `Step1FriendAPI.looksLikeAddress`: reject strings whose
trimmed length is below 5, otherwise accept when the text contains a digit,
a street-suffix word at word boundaries (case-insensitively), or the
leading-number pattern. -/
def looksLikeAddress (text : String) : Bool :=
  let trimmed := jsTrim text
  if jsLength trimmed < 5 then false
  else
    let hasNumber := trimmed.data.any Char.isDigit
    let hasAddressWords :=
      streetSuffixWords.any (fun w => wordOccursFrom w.data none (jsToLower trimmed).data)
    hasNumber || hasAddressWords || hasCommonAddressPattern trimmed.data

/-- Fields of the partner API `data` object read by the address extraction. -/
structure FriendData where
  fullAddress : Option String := none
  displayAddress : Option String := none
  title : Option String := none
  Weeks_OTM : Option String := none
deriving DecidableEq

/-- Loop body of `extractAddress`: try each candidate field in order, skipping
absent, empty, or heuristically rejected values. -/
def extractAddressFields : List (Option String) → Option String
  | [] => none
  | none :: rest => extractAddressFields rest
  | some v :: rest =>
    if v ≠ "" && jsLength (jsTrim v) > 0 then
      if looksLikeAddress v then some (jsTrim v) else extractAddressFields rest
    else extractAddressFields rest

/-- Embedding of `Step1FriendAPI.extractAddress`: priority order
`fullAddress`, `displayAddress`, `title`. -/
def extractAddress (data : FriendData) : Option String :=
  extractAddressFields [data.fullAddress, data.displayAddress, data.title]

/-- Shape of the partner API response consumed by `processResponse`. -/
structure FriendAPIResponse where
  success : Bool
  data : Option FriendData := none
  error : Option String := none
deriving DecidableEq

end Friend

/-- Sales-history entry scraped from the listing page, deduplicated by
`(year, rawPrice)` and sorted newest-first by the extractor (the display
string `price` is kept verbatim and never inspected). -/
structure Sale where
  year : Int
  rawPrice : Int
  price : String
deriving DecidableEq

/-! ### Pipeline step results and the pipeline loop -/

/-- Result of one pipeline step (`StepResult` in `src/pipeline/types.ts`);
confidence is modelled in ℚ since only the exact constants 1, 0.9, 0.3 and 0
occur. -/
structure StepResult where
  success : Bool
  address : Option String := none
  confidence : ℚ
  error : Option String := none
deriving DecidableEq

/-- Truthiness of the `address` field as tested by `stepResult.address` in JS. -/
def truthyAddr : Option String → Bool
  | none => false
  | some a => a ≠ ""

namespace Friend

/-- Embedding of `Step1FriendAPI.processResponse` (response-time metadata
omitted): success yields the trimmed extracted address with confidence 1.0. -/
def processResponse (response : FriendAPIResponse) : StepResult :=
  if !response.success then
    { success := false, confidence := 0,
      error := some (jsOr response.error "API returned success=false") }
  else
    match response.data with
    | none =>
      { success := false, confidence := 0, error := some "No data in API response" }
    | some data =>
      match extractAddress data with
      | none =>
        { success := false, confidence := 0,
          error := some "No valid address found in response" }
      | some fullAddress =>
        { success := true, address := some (jsTrim fullAddress), confidence := 1 }

end Friend

namespace PipelineTS

/-!
Embedding of `src/pipeline/AddressResolver.ts` (`executePipeline`) and of
`src/pipeline/steps/Step2RightmoveLandRegistry.ts` (`execute`, the variant
with the constructed-address fallback).  The Rightmove extraction and the
Land-Registry search are network operations; their outcomes are passed in
as data.
-/

/-- Outcome of `extractFromRightmove` (browser automation, abstracted). -/
structure RightmoveData where
  success : Bool
  postcode : Option String := none
  sales : List Sale := []
  error : Option String := none
deriving DecidableEq

/-- Outcome of `searchLandRegistry` (network queries, abstracted). -/
structure LandRegistryOutcome where
  success : Bool
  fullAddress : Option String := none
  strategy : Option String := none
  error : Option String := none
deriving DecidableEq

/-- Embedding of `Step2RightmoveLandRegistry.execute` from
`src/pipeline/steps/Step2RightmoveLandRegistry.ts`: Land-Registry success
yields confidence 0.9; otherwise a present postcode yields the constructed
fallback address with confidence 0.3; otherwise failure (timing metadata
omitted). -/
def step2Execute (propertyId : String) (rightmoveData : RightmoveData)
    (landRegistryResult : LandRegistryOutcome) : StepResult :=
  if !rightmoveData.success then
    { success := false, confidence := 0,
      error := some ("Rightmove extraction failed: " ++ jsInterp rightmoveData.error) }
  else if rightmoveData.sales.length > 0 && landRegistryResult.success
      && truthyAddr landRegistryResult.fullAddress then
    { success := true, address := landRegistryResult.fullAddress, confidence := 9/10 }
  else if jsTruthy rightmoveData.postcode then
    { success := true,
      address := some ("Property " ++ propertyId ++ ", " ++ jsInterp rightmoveData.postcode),
      confidence := 3/10 }
  else
    { success := false, confidence := 0,
      error := some "No address data found from Rightmove or Land Registry" }

/-- Behaviour of one configured pipeline step: it either returned a
`StepResult` or threw. -/
inductive StepOutcome where
  | ok (r : StepResult)
  | threw (msg : String)
deriving DecidableEq

/-- Name and behaviour of one configured pipeline step. -/
structure PStep where
  name : String
  outcome : StepOutcome
deriving DecidableEq

/-- Final pipeline result (`AddressResult`), metadata flattened to the
fields the specification talks about. -/
structure AddressResult where
  success : Bool
  address : Option String := none
  confidence : ℚ
  source : String
  stepUsed : Nat
  allErrors : List String := []
  error : Option String := none
deriving DecidableEq

/-- Embedding of `AddressResolver.getSourceName`. -/
def getSourceName (stepNumber : Nat) : String :=
  if stepNumber = 1 then "friend_api"
  else if stepNumber = 2 then "rightmove_land_registry"
  else "error"

/-- Error string recorded for a failed (non-throwing) step. -/
def stepFailMsg (n : Nat) (name : String) (r : StepResult) : String :=
  "Step " ++ toString n ++ " (" ++ name ++ "): "
    ++ jsOr r.error ("Step " ++ toString n ++ " failed without specific error")

/-- Error string recorded for a throwing step. -/
def stepThrewMsg (n : Nat) (msg : String) : String :=
  "Unexpected error in step " ++ toString n ++ ": " ++ msg

/-- Loop of `AddressResolver.executePipeline`: try steps in order, record an
error per failed step, stop at the first step that reports success with a
truthy address; when all steps are exhausted return the aggregate failure. -/
def executePipelineAux : Nat → List String → List PStep → AddressResult
  | _, errors, [] =>
    { success := false, confidence := 0, source := "error", stepUsed := 0,
      allErrors := errors,
      error := some ("All pipeline steps failed. Errors: " ++ String.intercalate "; " errors) }
  | n, errors, step :: rest =>
    match step.outcome with
    | .threw m => executePipelineAux (n + 1) (errors ++ [stepThrewMsg n m]) rest
    | .ok r =>
      if r.success && truthyAddr r.address then
        { success := true, address := r.address, confidence := r.confidence,
          source := getSourceName n, stepUsed := n }
      else
        executePipelineAux (n + 1) (errors ++ [stepFailMsg n step.name r]) rest

/-- Embedding of `AddressResolver.executePipeline`. -/
def executePipeline (steps : List PStep) : AddressResult :=
  executePipelineAux 1 [] steps

/-- One full pipeline run with the two configured steps, given the partner
API response and the Step-2 collaborator outcomes. -/
def resolvePipeline (response : Friend.FriendAPIResponse) (propertyId : String)
    (rightmoveData : RightmoveData) (landRegistryResult : LandRegistryOutcome) :
    AddressResult :=
  executePipeline
    [ { name := "Friend API", outcome := .ok (Friend.processResponse response) },
      { name := "Rightmove + Land Registry",
        outcome := .ok (step2Execute propertyId rightmoveData landRegistryResult) } ]

end PipelineTS

namespace Registry

/-!
Embedding of the Land-Registry matcher of the compiled worker
(`dist/steps/Step2RightmoveLandRegistry.js`): `executeSparqlQuery`,
`extractPropertyDetails`, the five per-sale query strategies of
`searchLandRegistryWithPostcode`, the two of
`searchLandRegistryWithOutcode`, and `smartPostcodeSearch`.  The HTTP layer
is abstracted by an environment assigning an outcome to each query; each
search function additionally returns the trace of queries it attempted, in
order.
-/

/-- One SPARQL result row (`results.bindings` entry); every field is the
optional `.value` string of the binding.  On a binding whose `.value` is the
empty string, `getValue` returns the binding object itself (its ternary
falls back to `landRegistryItem[key]`), and the later string-method calls on
that object throw a TypeError; `extractPropertyDetailsE` models those fault
paths. -/
structure Row where
  transx : Option String := none
  pricePaid : Option String := none
  date : Option String := none
  paon : Option String := none
  street : Option String := none
  postcode : Option String := none
  propType : Option String := none
  estateType : Option String := none
  newBuild : Option String := none
deriving DecidableEq

/-- Digit-accumulation loop of JS `parseInt`. -/
def jsDigitsVal : List Char → Nat → Nat
  | [], acc => acc
  | c :: rest, acc =>
    if c.isDigit then jsDigitsVal rest (acc * 10 + (c.toNat - '0'.toNat)) else acc

/-- Embedding of `parseInt(value) || 0`: leading whitespace and sign, then
decimal digits; `NaN` (no digits) and 0 both fall back to 0. -/
def jsParseIntOrZero : Option String → Int
  | none => 0
  | some s =>
    match s.data.dropWhile jsSpace with
    | '-' :: c :: rest => if c.isDigit then -(jsDigitsVal (c :: rest) 0 : Int) else 0
    | '+' :: c :: rest => if c.isDigit then (jsDigitsVal (c :: rest) 0 : Int) else 0
    | c :: rest => if c.isDigit then (jsDigitsVal (c :: rest) 0 : Int) else 0
    | [] => 0

/-- Embedding of `String.prototype.includes` with a one-character needle. -/
def jsIncludes (s : String) (c : Char) : Bool :=
  s.data.contains c

/-- Embedding of `value.split(sep).pop()` (the split list is never empty). -/
def jsSplitLast (v : String) (sep : Char) : String :=
  (jsSplit v sep).getLastD v

/-- Embedding of `getUriValue`: keep the segment after the last `#`, else
after the last `/`, else the value unchanged. -/
def getUriValue : Option String → Option String
  | none => none
  | some v =>
    if v ≠ "" && jsIncludes v '#' then some (jsSplitLast v '#')
    else if v ≠ "" && jsIncludes v '/' then some (jsSplitLast v '/')
    else some v

/-- Capitalisation of one street word: `word.charAt(0).toUpperCase() + word.slice(1)`. -/
def titleCaseWord (w : String) : String :=
  match w.data with
  | [] => ""
  | c :: rest => ⟨c.toUpper :: rest⟩

/-- Street formatting of `extractPropertyDetails`: lower-case, split on
spaces, capitalise each word, re-join. -/
def formatStreet (street : String) : String :=
  String.intercalate " " ((jsSplit (jsToLower street) ' ').map titleCaseWord)

/-- London-postcode test of `extractPropertyDetails`: the postcode is truthy
and starts with one of `SW`, `W`, `E`, `N`, `S`, `NW`, `SE`. -/
def isLondonPostcode (postcode : Option String) : Bool :=
  jsTruthy postcode &&
    (jsStartsWith (postcode.getD "") "SW" || jsStartsWith (postcode.getD "") "W" ||
     jsStartsWith (postcode.getD "") "E" || jsStartsWith (postcode.getD "") "N" ||
     jsStartsWith (postcode.getD "") "S" || jsStartsWith (postcode.getD "") "NW" ||
     jsStartsWith (postcode.getD "") "SE")

/-- Verified property details extracted from one matched row
(`formattedPrice`, a locale-dependent rendering of `pricePaid`, is omitted). -/
structure PropertyDetails where
  transactionId : String
  fullAddress : String
  pricePaid : Int
  date : Option String
  propertyType : String
  estateType : String
  newBuild : Bool
deriving DecidableEq

/-- Transform of `extractPropertyDetails` on rows whose bindings all carry
non-empty values: assemble the address parts (building identifier,
title-cased street, `London` for London postcodes, postcode), drop blank
parts, and join with a comma.  This total variant treats a part on which the
JS would throw a TypeError as skipped; it is what the matcher loops below
read the winning row through, and the matcher theorems assert only the
attempted-query traces, which such an exception (raised only after the
winning query) cannot alter.  The fault-faithful embedding is
`extractPropertyDetailsE`. -/
def extractPropertyDetails (row : Row) : PropertyDetails :=
  let addressParts : List String :=
    (if jsTruthy row.paon then [row.paon.getD ""] else []) ++
    (if jsTruthy row.street then [formatStreet (row.street.getD "")] else []) ++
    (if isLondonPostcode row.postcode then ["London"] else []) ++
    (if jsTruthy row.postcode then [row.postcode.getD ""] else [])
  { transactionId :=
      match row.transx with
      | some v => let lastSeg := jsSplitLast v '/'
                  if lastSeg = "" then "Unknown" else lastSeg
      | none => "Unknown",
    fullAddress := String.intercalate ", " (addressParts.filter (fun part => jsTrim part ≠ "")),
    pricePaid := jsParseIntOrZero row.pricePaid,
    date := row.date,
    propertyType := jsOr (getUriValue row.propType) "unknown",
    estateType := jsOr (getUriValue row.estateType) "unknown",
    newBuild := row.newBuild = some "true" }

/-- Value returned by the JS `getValue` helper: `null` for an absent
binding, the `.value` string when that string is truthy, or the binding
object itself when `.value` is the empty string (the ternary
`typeof ... === 'object' && landRegistryItem[key].value` is then false and
falls back to `landRegistryItem[key]`). -/
inductive JsValue where
  | null
  | obj
  | str (s : String)
deriving DecidableEq

/-- JS truthiness of a `getValue` result; objects are always truthy. -/
def JsValue.truthy : JsValue → Bool
  | .null => false
  | .obj => true
  | .str s => s ≠ ""

/-- Fault-sensitive embedding of `getValue`: an absent field yields `null`,
a binding with a non-empty `.value` yields that string, and a binding whose
`.value` is `""` yields the binding object itself. -/
def getValueJs : Option String → JsValue
  | none => .null
  | some s => if s = "" then .obj else .str s

/-- The filter `part => part && part.trim()` over the assembled address
parts, left to right: a falsy part is dropped without any method call, a
string part is kept when its trim is non-empty, and a binding object is
truthy, so `part.trim` is reached and throws. -/
def jsPartFilter : List JsValue → Except String (List String)
  | [] => Except.ok []
  | p :: rest =>
    Except.bind
      (match p with
       | JsValue.null => Except.ok none
       | JsValue.obj => Except.error "TypeError: part.trim is not a function"
       | JsValue.str s =>
           Except.ok (if s = "" then none
                      else if jsTrim s = "" then none else some s))
      (fun keep =>
        Except.bind (jsPartFilter rest)
          (fun tail =>
            Except.ok (match keep with | some s => s :: tail | none => tail)))

/-- The `transactionId` computation
`getValue('transx')?.split('/').pop() || 'Unknown'`: on `null` the optional
chain yields `undefined` and the fallback applies; on a binding object
`.split` is reached (the object is not nullish) and throws. -/
def transactionIdOf (transx : Option String) : Except String String :=
  match getValueJs transx with
  | .null => Except.ok "Unknown"
  | .obj => Except.error "TypeError: split is not a function"
  | .str v =>
      let lastSeg := jsSplitLast v '/'
      Except.ok (if lastSeg = "" then "Unknown" else lastSeg)

/-- The `getUriValue(key) || 'unknown'` computation: on `null` both guards
are falsy and the fallback applies; on a binding object `value.includes` is
reached (objects are truthy) and throws. -/
def uriValueOf (field : Option String) : Except String String :=
  match getValueJs field with
  | .null => Except.ok "unknown"
  | .obj => Except.error "TypeError: value.includes is not a function"
  | .str v => Except.ok (jsOr (getUriValue (some v)) "unknown")

/-- Assembly of `addressParts` with the fault paths modelled, in source
order: a truthy `paon` is pushed as is (a binding object only faults later,
at the filter), a truthy `street` is lower-cased first (`street.toLowerCase`
throws on a binding object), the London test calls `postcode.startsWith`
(throwing on a binding object), then `London` and the postcode are
pushed. -/
def buildAddressParts (row : Row) : Except String (List JsValue) :=
  let paon := getValueJs row.paon
  let street := getValueJs row.street
  let postcode := getValueJs row.postcode
  let parts1 : List JsValue := if paon.truthy then [paon] else []
  Except.bind
    (if street.truthy then
      match street with
      | JsValue.str s => Except.ok (parts1 ++ [JsValue.str (formatStreet s)])
      | _ => Except.error "TypeError: street.toLowerCase is not a function"
     else Except.ok parts1)
    (fun parts2 =>
      Except.bind
        (if postcode.truthy then
          match postcode with
          | JsValue.str s =>
              Except.ok (jsStartsWith s "SW" || jsStartsWith s "W" ||
                jsStartsWith s "E" || jsStartsWith s "N" ||
                jsStartsWith s "S" || jsStartsWith s "NW" ||
                jsStartsWith s "SE")
          | _ => Except.error "TypeError: postcode.startsWith is not a function"
         else Except.ok false)
        (fun isLondon =>
          Except.ok
            ((parts2 ++ (if isLondon then [JsValue.str "London"] else [])) ++
              (if postcode.truthy then [postcode] else []))))

/-- Fault-faithful embedding of `extractPropertyDetails`: the address parts
are assembled first (street and postcode faults arise there), then the
fields of the returned object literal are evaluated in source order —
`transactionId` (transx fault), `fullAddress` (the filter faults on a pushed
paon object), `pricePaid` (`parseInt` coerces an object to `NaN`, no fault),
`propertyType` and `estateType` (URI faults) — and a thrown TypeError
propagates out as an `error` value, failing the step. -/
def extractPropertyDetailsE (row : Row) : Except String PropertyDetails :=
  Except.bind (buildAddressParts row)
    (fun addressParts =>
      Except.bind (transactionIdOf row.transx)
        (fun transactionId =>
          Except.bind (jsPartFilter addressParts)
            (fun strParts =>
              Except.bind (uriValueOf row.propType)
                (fun propertyType =>
                  Except.bind (uriValueOf row.estateType)
                    (fun estateType =>
                      Except.ok
                        { transactionId := transactionId,
                          fullAddress := String.intercalate ", " strParts,
                          pricePaid :=
                            match getValueJs row.pricePaid with
                            | JsValue.str s => jsParseIntOrZero (some s)
                            | _ => 0,
                          date := row.date,
                          propertyType := propertyType,
                          estateType := estateType,
                          newBuild :=
                            getValueJs row.newBuild = JsValue.str "true" })))))

/-- Does every binding of the row carry a non-empty `.value` (absent fields
allowed)?  Exactly on such rows `getValue` never returns a raw binding
object. -/
def noEmptyBindings (row : Row) : Bool :=
  row.transx ≠ some "" && row.pricePaid ≠ some "" && row.date ≠ some "" &&
  row.paon ≠ some "" && row.street ≠ some "" && row.postcode ≠ some "" &&
  row.propType ≠ some "" && row.estateType ≠ some "" && row.newBuild ≠ some ""

/-- The address parts of a row, as the plain strings `extractPropertyDetails`
assembles (the value `buildAddressParts` reaches on rows without empty
bindings). -/
def addressStrings (row : Row) : List String :=
  (if jsTruthy row.paon then [row.paon.getD ""] else []) ++
  (if jsTruthy row.street then [formatStreet (row.street.getD "")] else []) ++
  (if isLondonPostcode row.postcode then ["London"] else []) ++
  (if jsTruthy row.postcode then [row.postcode.getD ""] else [])

/-- Identifier of one SPARQL query shape together with the parameters
interpolated into its FILTER clauses, one constructor per `searchBy...`
helper used by the matcher. -/
inductive Query where
  | postcodeYearPrice (postcode : String) (year : Int) (rawPrice : Int)
  | postcodeYear (postcode : String) (year : Int)
  | outcodeYearPrice (outcode : String) (year : Int) (rawPrice : Int)
  | outcodeYear (outcode : String) (year : Int)
  | dateRange (year : Int) (rawPrice : Int)
deriving DecidableEq

/-- Result of `executeSparqlQuery` as consumed by the matcher. -/
structure QueryResult where
  success : Bool
  results : List Row := []
  error : Option String := none
deriving DecidableEq

/-- Network environment: the outcome of each SPARQL query. -/
def Env : Type := Query → QueryResult

/-- Response body of one SPARQL HTTP request: either not parseable as JSON,
or JSON with or without a `results.bindings` array. -/
inductive SparqlBody where
  | notJson
  | json (resultsBindings : Option (List Row))
deriving DecidableEq

/-- Outcome of one SPARQL HTTP request. -/
inductive HttpOutcome where
  | response (body : SparqlBody)
  | netError (msg : String)
  | timeout
deriving DecidableEq

/-- Request timeout (ms) set by `executeSparqlQuery` in
`dist/steps/Step2RightmoveLandRegistry.js`. -/
def distSparqlTimeoutMs : Nat := 45000

/-- Request timeout (ms) set by `executeSparqlQuery` in
`src/pipeline/steps/Step2RightmoveLandRegistry.ts`. -/
def tsSparqlTimeoutMs : Nat := 15000

/-- Embedding of `executeSparqlQuery` (identical response handling in the
dist and TypeScript variants): every network or parse failure resolves to a
`success = false` value; only a JSON body with `results.bindings` succeeds.
The promise `reject` callback is unreachable, so the operation never throws. -/
def executeSparqlQuery : HttpOutcome → QueryResult
  | .response .notJson => { success := false, error := some "Invalid JSON response" }
  | .response (.json none) => { success := false, error := some "No results found" }
  | .response (.json (some rows)) => { success := true, results := rows }
  | .netError m => { success := false, error := some m }
  | .timeout => { success := false, error := some "Request timeout" }

/-- Search outcome of the matcher loops (`searchLandRegistryWith...`,
`smartPostcodeSearch`). -/
structure SearchOutcome where
  success : Bool
  fullAddress : Option String := none
  strategy : Option String := none
  verifiedData : Option PropertyDetails := none
  postcodeUsed : Option String := none
  error : Option String := none
deriving DecidableEq

/-- One strategy attempt of the matcher: on `result.success &&
result.results.length > 0` take the first row and extract the details,
otherwise fall through. -/
def tryQuery (env : Env) (q : Query) (stratName : String) : Option SearchOutcome :=
  let r := env q
  if r.success && r.results.length > 0 then
    match r.results with
    | row :: _ =>
      some { success := true,
             fullAddress := some (extractPropertyDetails row).fullAddress,
             strategy := some stratName,
             verifiedData := some (extractPropertyDetails row) }
    | [] => none
  else none

/-- The five queries `searchLandRegistryWithPostcode` issues for one sale
record, in order, with the strategy label each would report; the outcode is
derived by `postcode.split(' ')[0]`. -/
def saleQueriesWithPostcode (postcode : String) (sale : Sale) : List (Query × String) :=
  let outcode := (jsSplit postcode ' ').headD ""
  [ (.postcodeYearPrice postcode sale.year sale.rawPrice, "postcode-year-price"),
    (.postcodeYear postcode sale.year, "postcode-year"),
    (.outcodeYearPrice outcode sale.year sale.rawPrice, "outcode-year-price"),
    (.outcodeYear outcode sale.year, "outcode-year"),
    (.dateRange sale.year sale.rawPrice, "date-range") ]

/-- The two queries `searchLandRegistryWithOutcode` issues for one sale
record, in order (the broader strategies are deliberately skipped). -/
def saleQueriesWithOutcode (outcode : String) (sale : Sale) : List (Query × String) :=
  [ (.outcodeYearPrice outcode sale.year sale.rawPrice, "outcode-year-price"),
    (.outcodeYear outcode sale.year, "outcode-year") ]

/-- Chain of strategy attempts for one sale record: first hit wins; the
trace records every query issued. -/
def runSaleQueries (env : Env) : List (Query × String) → Option SearchOutcome × List Query
  | [] => (none, [])
  | (q, stratName) :: rest =>
    match tryQuery env q stratName with
    | some out => (some out, [q])
    | none =>
      let (o, t) := runSaleQueries env rest
      (o, q :: t)

/-- Sale-record loop of `searchLandRegistryWithPostcode`. -/
def searchSalesWithPostcode (env : Env) (postcode : String) :
    List Sale → Option SearchOutcome × List Query
  | [] => (none, [])
  | sale :: rest =>
    match runSaleQueries env (saleQueriesWithPostcode postcode sale) with
    | (some out, t) => (some out, t)
    | (none, t) =>
      let (o, t2) := searchSalesWithPostcode env postcode rest
      (o, t ++ t2)

/-- Embedding of `searchLandRegistryWithPostcode`: for each sale record
(newest first) try the five strategies in order; the first query returning a
row wins and its first row is the match. -/
def searchLandRegistryWithPostcode (env : Env) (sales : List Sale) (postcode : String) :
    SearchOutcome × List Query :=
  if sales.length = 0 then
    ({ success := false, error := some "No sales data for Land Registry search" }, [])
  else
    match searchSalesWithPostcode env postcode sales with
    | (some out, t) => (out, t)
    | (none, t) => ({ success := false, error := some "No Land Registry matches found" }, t)

/-- Sale-record loop of `searchLandRegistryWithOutcode`. -/
def searchSalesWithOutcode (env : Env) (outcode : String) :
    List Sale → Option SearchOutcome × List Query
  | [] => (none, [])
  | sale :: rest =>
    match runSaleQueries env (saleQueriesWithOutcode outcode sale) with
    | (some out, t) => (some out, t)
    | (none, t) =>
      let (o, t2) := searchSalesWithOutcode env outcode rest
      (o, t ++ t2)

/-- Embedding of `searchLandRegistryWithOutcode`: per sale record only the
outcode+year+price and outcode+year strategies run, in that order. -/
def searchLandRegistryWithOutcode (env : Env) (sales : List Sale) (outcode : String) :
    SearchOutcome × List Query :=
  if sales.length = 0 then
    ({ success := false, error := some "No sales data for outcode search" }, [])
  else
    match searchSalesWithOutcode env outcode sales with
    | (some out, t) => (out, t)
    | (none, t) =>
      ({ success := false, error := some "No outcode Land Registry matches found" }, t)

/-- One postcode-level strategy of `smartPostcodeSearch`. -/
structure PostcodeStrategy where
  name : String
  postcode : String
  isOutcode : Bool := false
deriving DecidableEq

/-- Strategy list built by `smartPostcodeSearch` from the externally
supplied outward/inward parts: full postcode when both are truthy, then
outcode-only when the outward part is truthy. -/
def smartStrategies (outcode incode : Option String) : List PostcodeStrategy :=
  (if jsTruthy outcode && jsTruthy incode then
    [{ name := "full-postcode",
       postcode := outcode.getD "" ++ " " ++ incode.getD "" }]
   else []) ++
  (if jsTruthy outcode then
    [{ name := "outcode-only", postcode := outcode.getD "", isOutcode := true }]
   else [])

/-- Strategy loop of `smartPostcodeSearch`: run each postcode-level strategy
in order, stopping at the first whose search succeeds with a truthy address;
the winning outcome is re-labelled with the strategy prefix. -/
def runStrategies (env : Env) (sales : List Sale) :
    List PostcodeStrategy → Option SearchOutcome × List Query
  | [] => (none, [])
  | strat :: rest =>
    let (res, t) :=
      if strat.isOutcode then searchLandRegistryWithOutcode env sales strat.postcode
      else searchLandRegistryWithPostcode env sales strat.postcode
    if res.success && jsTruthy res.fullAddress then
      (some { res with postcodeUsed := some strat.postcode,
                       strategy := some (strat.name ++ "-" ++ jsInterp res.strategy) }, t)
    else
      let (o, t2) := runStrategies env sales rest
      (o, t ++ t2)

/-- Embedding of `smartPostcodeSearch`: guard on available sales, build the
postcode strategies, and try them in order. -/
def smartPostcodeSearch (env : Env) (sales : List Sale) (outcode incode : Option String) :
    SearchOutcome × List Query :=
  if sales.length = 0 then
    ({ success := false, error := some "No sales data for Land Registry search" }, [])
  else
    let strategies := smartStrategies outcode incode
    match runStrategies env sales strategies with
    | (some out, t) => (out, t)
    | (none, t) =>
      ({ success := false,
         error := some ("All " ++ toString strategies.length ++ " postcode strategies failed") },
       t)

/-! Specification-side view of the matcher: the flat nested attempt order
and the first-hit rule, used to state the strategy-order claims. -/

/-- A query hits when the environment reports success with at least one row. -/
def hit (env : Env) (q : Query) : Bool :=
  (env q).success && (env q).results.length > 0

/-- Prefix of a query list up to and including its first hit (the whole
list when nothing hits). -/
def attemptsUpToFirstHit (env : Env) : List Query → List Query
  | [] => []
  | q :: rest => if hit env q then [q] else q :: attemptsUpToFirstHit env rest

/-- Flat nested attempt order of the full-postcode search: for each sale
record in order, the five strategies in order. -/
def nestedAttemptsWithPostcode (postcode : String) (sales : List Sale) : List Query :=
  sales.flatMap (fun sale => (saleQueriesWithPostcode postcode sale).map Prod.fst)

/-- Flat nested attempt order of the outcode-only search: for each sale
record in order, the two outcode strategies in order. -/
def nestedAttemptsWithOutcode (outcode : String) (sales : List Sale) : List Query :=
  sales.flatMap (fun sale => (saleQueriesWithOutcode outcode sale).map Prod.fst)

/-- Is this query one of the two outcode-only strategies? -/
def isOutcodeQuery : Query → Bool
  | .outcodeYearPrice _ _ _ => true
  | .outcodeYear _ _ => true
  | _ => false

end Registry

namespace Bulk

/-!
Embedding of `src/bulk/BulkProcessor.ts`: identifier chunking
(`chunkArray`), bulk-job submission (`enqueueBulkJob`), the progress record
and its initialisation/update (`initializeBulkJobProgress`,
`updateBulkJobProgress`), and the per-chunk progress delta computed by
`processBatch`.  Timestamps (`new Date()`) are abstract `Nat` instants; the
derived `estimatedTimeRemaining` field and the Redis TTLs are not modelled.
-/

/-- Chunking loop of `chunkArray`: slices of `size` from the front, in
order.  Structured with fuel (`= array.length`), which is ample for the
positive chunk sizes the processor uses. -/
def chunkArrayAux (size : Nat) : Nat → List String → List (List String)
  | 0, _ => []
  | _, [] => []
  | fuel + 1, l => l.take size :: chunkArrayAux size fuel (l.drop size)

/-- Embedding of `chunkArray`. -/
def chunkArray (l : List String) (size : Nat) : List (List String) :=
  chunkArrayAux size l.length l

/-- Batch status values of `BulkJobProgress.status`. -/
inductive JobStatus where
  | pending
  | processing
  | completed
  | failed
deriving DecidableEq

/-- Embedding of the `BulkJobProgress` record (counts, status and
timestamps; the derived ETA field is omitted). -/
structure BulkJobProgress where
  totalProperties : Nat
  processedProperties : Nat
  successfulProperties : Nat
  failedProperties : Nat
  status : JobStatus
  startedAt : Nat
  completedAt : Option Nat := none
deriving DecidableEq

/-- Embedding of `initializeBulkJobProgress`. -/
def initBulkJobProgress (totalProperties : Nat) (now : Nat) : BulkJobProgress :=
  { totalProperties := totalProperties,
    processedProperties := 0,
    successfulProperties := 0,
    failedProperties := 0,
    status := .pending,
    startedAt := now }

/-- Embedding of the pure core of `updateBulkJobProgress`: add the deltas,
mark `completed` exactly when the processed count has reached the total
(else `processing`), and timestamp `completedAt` on completion. -/
def updateBulkJobProgress (now : Nat) (progress : BulkJobProgress)
    (processed successful failed : Nat) : BulkJobProgress :=
  let processedNew := progress.processedProperties + processed
  let successfulNew := progress.successfulProperties + successful
  let failedNew := progress.failedProperties + failed
  let statusNew : JobStatus :=
    if processedNew ≥ progress.totalProperties then .completed else .processing
  { progress with
      processedProperties := processedNew,
      successfulProperties := successfulNew,
      failedProperties := failedNew,
      status := statusNew,
      completedAt := if statusNew = .completed then some now else progress.completedAt }

/-- Completion data of one consumed chunk: the chunk and the per-identifier
success flags of its settled pipeline results. -/
structure ChunkRun where
  chunk : List String
  outcomes : List Bool
deriving DecidableEq

/-- Progress delta applied by `processBatch` after finishing a chunk:
`processed = chunk length`, `successful = fulfilled successes`,
`failed = results - successes`. -/
def chunkUpdate (now : Nat) (progress : BulkJobProgress) (run : ChunkRun) : BulkJobProgress :=
  let successful := run.outcomes.count true
  let failed := run.outcomes.length - successful
  updateBulkJobProgress now progress run.chunk.length successful failed

/-- Sequence of chunk completions applied to the shared progress record, one
store-serialized read-modify-write per chunk, at increasing instants. -/
def applyRuns (now : Nat) (progress : BulkJobProgress) : List ChunkRun → BulkJobProgress
  | [] => progress
  | run :: rest => applyRuns (now + 1) (chunkUpdate now progress run) rest

/-- One durable queue entry submitted by `enqueueBulkJob`. -/
structure QueueEntry where
  propertyIds : List String
  batchIndex : Nat
  totalBatches : Nat
  priority : Nat
  delay : Nat
deriving DecidableEq

/-- Embedding of `enqueueBulkJob`: chunk the identifiers (`batchSize`
defaults to 50), initialise the progress record with the identifier count
and `pending` status, and submit one queue entry per chunk with a
1000 ms-per-index stagger delay. -/
def enqueueBulkJob (propertyIds : List String) (now : Nat) (batchSize : Nat := 50) :
    BulkJobProgress × List QueueEntry :=
  let chunks := chunkArray propertyIds batchSize
  (initBulkJobProgress propertyIds.length now,
   chunks.enum.map (fun p =>
     { propertyIds := p.2, batchIndex := p.1, totalBatches := chunks.length,
       priority := 1, delay := p.1 * 1000 }))

/-!
Interleaving model of concurrent chunk consumers.  Each consumer performs
`redis.get` (take a snapshot of the store) and later `redis.set` (write the
update computed from its own snapshot), exactly the two-step
read-modify-write of `updateBulkJobProgress`.
-/

/-- One store access of a chunk consumer. -/
inductive RmwEvent where
  | read (consumer : Nat)
  | write (consumer : Nat)
deriving DecidableEq

/-- State of the interleaved execution: the shared store and the last read snapshot of each consumer. -/
structure RmwState where
  store : BulkJobProgress
  snapshot : Nat → Option BulkJobProgress

/-- Run a schedule of store accesses; on `write`, the consumer applies its
chunk delta to the snapshot it read, not to the current store. -/
def runRmwSchedule (runs : Nat → ChunkRun) (now : Nat) (st : RmwState) :
    List RmwEvent → BulkJobProgress
  | [] => st.store
  | .read i :: rest =>
    runRmwSchedule runs (now + 1)
      { st with snapshot := fun j => if j = i then some st.store else st.snapshot j } rest
  | .write i :: rest =>
    match st.snapshot i with
    | some snap =>
      runRmwSchedule runs (now + 1) { st with store := chunkUpdate now snap (runs i) } rest
    | none => runRmwSchedule runs (now + 1) st rest

/-- Initial interleaving state over a fresh progress record. -/
def initRmwState (total : Nat) : RmwState :=
  { store := initBulkJobProgress total 0, snapshot := fun _ => none }

/-- Progress record visible after the first `j` store-serialized chunk
completions of a batch over `ids`. -/
def progressAfter (ids : List String) (runs : List ChunkRun) (j : Nat) : BulkJobProgress :=
  applyRuns 0 (initBulkJobProgress ids.length 0) (runs.take j)

/-- Property asserted by claim C3 about the state after the (k+1)-st
progress update of a batch: the processed count splits into succeeded plus
failed, every counter is non-decreasing relative to the previous state, the
status is `completed` exactly when the processed count has reached the
total, `completedAt` is set exactly on completion, the batch-level status is
never `failed`, and a completed status is never left. -/
def c3Statement (ids : List String) (runs : List ChunkRun) (k : Nat) : Prop :=
  (progressAfter ids runs (k + 1)).processedProperties
      = (progressAfter ids runs (k + 1)).successfulProperties
        + (progressAfter ids runs (k + 1)).failedProperties ∧
  (progressAfter ids runs k).processedProperties
      ≤ (progressAfter ids runs (k + 1)).processedProperties ∧
  (progressAfter ids runs k).successfulProperties
      ≤ (progressAfter ids runs (k + 1)).successfulProperties ∧
  (progressAfter ids runs k).failedProperties
      ≤ (progressAfter ids runs (k + 1)).failedProperties ∧
  ((progressAfter ids runs (k + 1)).status = JobStatus.completed ↔
      (progressAfter ids runs (k + 1)).processedProperties
        = (progressAfter ids runs (k + 1)).totalProperties) ∧
  ((progressAfter ids runs (k + 1)).status = JobStatus.completed ↔
      (progressAfter ids runs (k + 1)).completedAt.isSome = true) ∧
  (progressAfter ids runs (k + 1)).status ≠ JobStatus.failed ∧
  ((progressAfter ids runs k).status = JobStatus.completed →
      (progressAfter ids runs (k + 1)).status = JobStatus.completed)

end Bulk

/-! ### Specification-side definitions

Reformulations written from the sentences of the specification, to be
compared with the code-side embeddings above. -/

namespace Registry

/-- London-area outward prefixes named by the specification. -/
def londonPrefixes : List String :=
  ["SW", "W", "E", "N", "S", "NW", "SE"]

/-- Address-formatting rule as worded by the specification: concatenate the
building identifier, the title-cased street name, the literal `London` iff
the postal code starts with one of the London-area prefixes, and the postal
code, joined with a comma-space, skipping empty parts. -/
def specRowAddress (paon street postcode : Option String) : String :=
  let london :=
    match postcode with
    | some pc => pc ≠ "" && londonPrefixes.any (fun p => jsStartsWith pc p)
    | none => false
  let slots : List String :=
    [paon.getD "", (street.map formatStreet).getD "",
     if london then "London" else "", postcode.getD ""]
  String.intercalate ", " (slots.filter (fun part => jsTrim part ≠ ""))

/-- Property asserted by claim C2 for one environment, sales list and
outward/inward pair: the full-postcode search issues, per sale record in
order, the five strategies in order, stopping at (and only at) the first
query that hits; it succeeds exactly when some query in that nested order
hits; and a success with a truthy address stops the smart search without any
further query. -/
def c2Statement (env : Env) (sales : List Sale) (o i : String) : Prop :=
  (searchLandRegistryWithPostcode env sales (o ++ " " ++ i)).2
      = attemptsUpToFirstHit env (nestedAttemptsWithPostcode (o ++ " " ++ i) sales) ∧
  ((searchLandRegistryWithPostcode env sales (o ++ " " ++ i)).1.success = true ↔
      ∃ q ∈ nestedAttemptsWithPostcode (o ++ " " ++ i) sales, hit env q = true) ∧
  ((searchLandRegistryWithPostcode env sales (o ++ " " ++ i)).1.success = true →
    jsTruthy (searchLandRegistryWithPostcode env sales (o ++ " " ++ i)).1.fullAddress = true →
    (smartPostcodeSearch env sales (some o) (some i)).2
      = (searchLandRegistryWithPostcode env sales (o ++ " " ++ i)).2)

/-- Property asserted by claim C6 for one environment, sales list and
outward-only hint: the smart search issues exactly the outcode+year+price
and outcode+year queries, per sale record in order, up to the first hit, and
never any full-postcode or date-range query. -/
def c6Statement (env : Env) (sales : List Sale) (o : String) : Prop :=
  (smartPostcodeSearch env sales (some o) none).2
      = attemptsUpToFirstHit env (nestedAttemptsWithOutcode o sales) ∧
  (∀ q ∈ (smartPostcodeSearch env sales (some o) none).2, isOutcodeQuery q = true)

end Registry

namespace PipelineTS

/-- Does this pipeline step report failure (no success, or no truthy
address, or a thrown error)? -/
def stepFails (p : PStep) : Bool :=
  match p.outcome with
  | .threw _ => true
  | .ok r => !(r.success && truthyAddr r.address)

/-- Error string the pipeline records for an attempted failing step. -/
def stepErrorEntry (n : Nat) (p : PStep) : String :=
  match p.outcome with
  | .threw m => stepThrewMsg n m
  | .ok r => stepFailMsg n p.name r

/-- Error strings recorded for a run in which every step fails: one entry
per attempted step, in pipeline order. -/
def pipelineErrors (steps : List PStep) : List String :=
  (List.enumFrom 1 steps).map (fun p => stepErrorEntry p.1 p.2)

end PipelineTS

example : Friend.looksLikeAddress "12 Blenheim Crescent, London" = true := by decide

example : Friend.looksLikeAddress "1 St" = false := by decide

example :
    Friend.extractAddress
      { fullAddress := some "1 St", displayAddress := some "12 Blenheim Crescent" }
      = some "12 Blenheim Crescent" := by decide

/-! ### Helper lemmas -/

theorem chunkArrayAux_flatten (size : Nat) (hs : 0 < size) :
    ∀ (fuel : Nat) (l : List String), l.length ≤ fuel →
      (Bulk.chunkArrayAux size fuel l).flatten = l := by
  intro fuel
  induction fuel with
  | zero =>
    intro l hl
    have : l = [] := List.eq_nil_of_length_eq_zero (Nat.le_zero.mp hl)
    subst this
    rfl
  | succ fuel ih =>
    intro l hl
    cases l with
    | nil => rfl
    | cons x xs =>
      show (List.take size (x :: xs)
          :: Bulk.chunkArrayAux size fuel (List.drop size (x :: xs))).flatten = x :: xs
      have hdrop : (List.drop size (x :: xs)).length ≤ fuel := by
        rw [List.length_drop]
        omega
      rw [List.flatten_cons, ih _ hdrop, List.take_append_drop]

theorem chunkArray_flatten (l : List String) (size : Nat) (hs : 0 < size) :
    (Bulk.chunkArray l size).flatten = l :=
  chunkArrayAux_flatten size hs l.length l (Nat.le_refl _)

theorem chunkArrayAux_ne_nil (size : Nat) (hs : 0 < size) :
    ∀ (fuel : Nat) (l : List String) (c : List String),
      c ∈ Bulk.chunkArrayAux size fuel l → c ≠ [] := by
  intro fuel
  induction fuel with
  | zero => intro l c hc; simp [Bulk.chunkArrayAux] at hc
  | succ fuel ih =>
    intro l c hc
    cases l with
    | nil => simp [Bulk.chunkArrayAux] at hc
    | cons x xs =>
      have hc2 : c ∈ List.take size (x :: xs)
          :: Bulk.chunkArrayAux size fuel (List.drop size (x :: xs)) := hc
      rcases List.mem_cons.mp hc2 with h | h
      · subst h
        intro hEmpty
        have hlen : (List.take size (x :: xs)).length = 0 := by rw [hEmpty]; rfl
        rw [List.length_take, List.length_cons] at hlen
        omega
      · exact ih _ _ h

theorem chunkArray_ne_nil (l : List String) (size : Nat) (hs : 0 < size) :
    ∀ c ∈ Bulk.chunkArray l size, c ≠ [] :=
  fun c hc => chunkArrayAux_ne_nil size hs l.length l c hc

theorem map_snd_enumFrom {α : Type} :
    ∀ (n : Nat) (l : List α), (List.enumFrom n l).map Prod.snd = l
  | _, [] => rfl
  | n, x :: xs => by
    show x :: (List.enumFrom (n + 1) xs).map Prod.snd = x :: xs
    rw [map_snd_enumFrom (n + 1) xs]

theorem length_enumFrom {α : Type} :
    ∀ (n : Nat) (l : List α), (List.enumFrom n l).length = l.length
  | _, [] => rfl
  | n, x :: xs => by
    show (List.enumFrom (n + 1) xs).length + 1 = xs.length + 1
    rw [length_enumFrom (n + 1) xs]

/-! ### Claim theorems -/

/-- Claim C8: `enqueueBulkJob` splits the identifier list into ordered
chunks of the (default 50) chunk size — 237 identifiers give chunks of
sizes 50, 50, 50, 50, 37 preserving input order — creates the progress
record with `total` equal to the identifier count and `pending` status, and
submits one queue entry per chunk with a fixed 1000 ms stagger per chunk
index. -/
theorem c8_enqueue_chunks_and_progress :
    (∀ ids : List String,
      ((Bulk.enqueueBulkJob ids 0).2.map (fun e => e.propertyIds)).flatten = ids ∧
      (Bulk.enqueueBulkJob ids 0).1.totalProperties = ids.length ∧
      (Bulk.enqueueBulkJob ids 0).1.status = Bulk.JobStatus.pending ∧
      (Bulk.enqueueBulkJob ids 0).2.length = (Bulk.chunkArray ids 50).length ∧
      ∀ e ∈ (Bulk.enqueueBulkJob ids 0).2, e.delay = e.batchIndex * 1000) ∧
    (Bulk.enqueueBulkJob (List.replicate 237 "id") 0).2.map (fun e => e.propertyIds.length)
      = [50, 50, 50, 50, 37] ∧
    (Bulk.enqueueBulkJob (List.replicate 237 "id") 0).2.map (fun e => e.delay)
      = [0, 1000, 2000, 3000, 4000] := by
  refine ⟨fun ids => ⟨?_, rfl, rfl, ?_, ?_⟩, by decide, by decide⟩
  · have h1 : ((Bulk.enqueueBulkJob ids 0).2.map (fun e => e.propertyIds))
        = Bulk.chunkArray ids 50 := by
      simp only [Bulk.enqueueBulkJob, List.enum, List.map_map]
      exact map_snd_enumFrom 0 (Bulk.chunkArray ids 50)
    rw [h1]
    exact chunkArray_flatten ids 50 (by omega)
  · simp only [Bulk.enqueueBulkJob, List.enum, List.length_map]
    exact length_enumFrom 0 (Bulk.chunkArray ids 50)
  · intro e he
    simp only [Bulk.enqueueBulkJob, List.mem_map] at he
    obtain ⟨p, _, rfl⟩ := he
    rfl

/-- Claim C9 (counterexample): the TypeScript pipeline variant of
`executeSparqlQuery` sets a 15-second request timeout, so not every registry
query in the repository enforces a 45-second timeout. -/
theorem c9_ts_timeout_not_45s :
    Registry.tsSparqlTimeoutMs = 15000 ∧ ¬(Registry.tsSparqlTimeoutMs = 45000) := by
  decide

/-- Claim C9 (amended): the compiled worker enforces a 45-second registry
query timeout (the TypeScript pipeline variant 15 seconds), and in both the
shared response handling reports every failure mode — timeout, network
error, non-JSON body, missing `results.bindings` — as a returned
`success = false` value; the query succeeds exactly on a JSON body carrying
`results.bindings`, and no outcome throws. -/
theorem c9_sparql_failure_modes :
    Registry.distSparqlTimeoutMs = 45000 ∧
    Registry.tsSparqlTimeoutMs = 15000 ∧
    Registry.executeSparqlQuery .timeout
      = { success := false, error := some "Request timeout" } ∧
    Registry.executeSparqlQuery (.response .notJson)
      = { success := false, error := some "Invalid JSON response" } ∧
    Registry.executeSparqlQuery (.response (.json none))
      = { success := false, error := some "No results found" } ∧
    (∀ m, Registry.executeSparqlQuery (.netError m)
      = { success := false, error := some m }) ∧
    (∀ rows, Registry.executeSparqlQuery (.response (.json (some rows)))
      = { success := true, results := rows }) ∧
    (∀ o, (Registry.executeSparqlQuery o).success = true ↔
      ∃ rows, o = .response (.json (some rows))) := by
  refine ⟨rfl, rfl, rfl, rfl, rfl, fun m => rfl, fun rows => rfl, fun o => ?_⟩
  cases o with
  | response body =>
    cases body with
    | notJson => simp [Registry.executeSparqlQuery]
    | json b =>
      cases b with
      | none => simp [Registry.executeSparqlQuery]
      | some rows => simp [Registry.executeSparqlQuery]
  | netError m => simp [Registry.executeSparqlQuery]
  | timeout => simp [Registry.executeSparqlQuery]

/-- Claim C10: the partner-lookup address heuristic rejects every candidate
whose trimmed length is below 5 — regardless of digits, street-suffix words
or leading-number patterns — and a rejected `fullAddress` field is skipped,
extraction continuing with the remaining fields exactly as if the field were
absent. -/
theorem c10_short_candidates_rejected :
    ∀ text : String, jsLength (jsTrim text) < 5 →
      Friend.looksLikeAddress text = false ∧
      ∀ (displayAddress title : Option String),
        Friend.extractAddress
            { fullAddress := some text, displayAddress := displayAddress, title := title }
          = Friend.extractAddress
            { fullAddress := none, displayAddress := displayAddress, title := title } := by
  intro text h
  have hl : Friend.looksLikeAddress text = false := by
    simp only [Friend.looksLikeAddress, if_pos h]
  refine ⟨hl, fun displayAddress title => ?_⟩
  simp only [Friend.extractAddress, Friend.extractAddressFields, hl]
  split <;> rfl

/-- Witness for C10 at the concrete candidate `"1 St"` (4 characters, yet
containing a digit, a leading-number pattern): rejected, and extraction
falls through to the `displayAddress` field. -/
theorem c10_witness :
    jsLength (jsTrim "1 St") < 5 ∧
    Friend.looksLikeAddress "1 St" = false ∧
    Friend.extractAddress
        { fullAddress := some "1 St", displayAddress := some "12 Blenheim Crescent",
          title := none }
      = Friend.extractAddress
        { fullAddress := none, displayAddress := some "12 Blenheim Crescent",
          title := none } :=
  ⟨by decide, (c10_short_candidates_rejected "1 St" (by decide)).1,
    (c10_short_candidates_rejected "1 St" (by decide)).2 (some "12 Blenheim Crescent") none⟩

/-- Claim C5: the progress update of `BulkProcessor` is a plain Redis
`get` followed by `set`, not an atomic or store-serialized read-modify-write;
with two concurrent chunk consumers of a 100-identifier batch both reading
before either writes, one 50-identifier increment is lost (the record ends at
50 processed and never completes), whereas the serialized schedule of the
same two updates reaches 100 processed and `completed`. -/
theorem c5_rmw_lost_update :
    Bulk.runRmwSchedule
        (fun _ => { chunk := List.replicate 50 "id", outcomes := List.replicate 50 true }) 1
        (Bulk.initRmwState 100)
        [.read 1, .read 2, .write 1, .write 2]
      = { totalProperties := 100, processedProperties := 50, successfulProperties := 50,
          failedProperties := 0, status := .processing, startedAt := 0,
          completedAt := none } ∧
    Bulk.runRmwSchedule
        (fun _ => { chunk := List.replicate 50 "id", outcomes := List.replicate 50 true }) 1
        (Bulk.initRmwState 100)
        [.read 1, .write 1, .read 2, .write 2]
      = { totalProperties := 100, processedProperties := 100, successfulProperties := 100,
          failedProperties := 0, status := .completed, startedAt := 0,
          completedAt := some 4 } := by
  constructor <;> decide

theorem processResponse_success_confidence (response : Friend.FriendAPIResponse) :
    (Friend.processResponse response).success = true →
    (Friend.processResponse response).confidence = 1 := by
  unfold Friend.processResponse
  split
  · intro h; simp at h
  · split
    · intro h; simp at h
    · split
      · intro h; simp at h
      · intro _; rfl

theorem step2Execute_success_confidence (propertyId : String)
    (rightmoveData : PipelineTS.RightmoveData)
    (landRegistryResult : PipelineTS.LandRegistryOutcome) :
    (PipelineTS.step2Execute propertyId rightmoveData landRegistryResult).success = true →
    (PipelineTS.step2Execute propertyId rightmoveData landRegistryResult).confidence = 9/10 ∨
    (PipelineTS.step2Execute propertyId rightmoveData landRegistryResult).confidence = 3/10 := by
  unfold PipelineTS.step2Execute
  split
  · intro h; simp at h
  · split
    · intro _; exact Or.inl rfl
    · split
      · intro _; exact Or.inr rfl
      · intro h; simp at h

/-- Claim C1 (amended): every pipeline result with `success = true` carries a
truthy (non-empty) address and a positive confidence, and that confidence is
exactly 1.0 (partner lookup), 0.9 (registry-verified), or 0.3 (the
constructed-address fallback of the Rightmove step). -/
theorem c1_success_confidence_values :
    ∀ (response : Friend.FriendAPIResponse) (propertyId : String)
      (rightmoveData : PipelineTS.RightmoveData)
      (landRegistryResult : PipelineTS.LandRegistryOutcome),
      (PipelineTS.resolvePipeline response propertyId rightmoveData
          landRegistryResult).success = true →
      ((PipelineTS.resolvePipeline response propertyId rightmoveData
          landRegistryResult).confidence = 1 ∨
       (PipelineTS.resolvePipeline response propertyId rightmoveData
          landRegistryResult).confidence = 9/10 ∨
       (PipelineTS.resolvePipeline response propertyId rightmoveData
          landRegistryResult).confidence = 3/10) ∧
      truthyAddr (PipelineTS.resolvePipeline response propertyId rightmoveData
          landRegistryResult).address = true ∧
      0 < (PipelineTS.resolvePipeline response propertyId rightmoveData
          landRegistryResult).confidence := by
  intro response propertyId rightmoveData landRegistryResult h
  simp only [PipelineTS.resolvePipeline, PipelineTS.executePipeline,
    PipelineTS.executePipelineAux] at h ⊢
  by_cases h1 : ((Friend.processResponse response).success
      && truthyAddr (Friend.processResponse response).address) = true
  · rw [if_pos h1] at h ⊢
    rw [Bool.and_eq_true] at h1
    obtain ⟨hs, ht⟩ := h1
    have hc := processResponse_success_confidence response hs
    exact ⟨Or.inl hc, ht, by rw [hc]; norm_num⟩
  · rw [if_neg h1] at h ⊢
    by_cases h2 : ((PipelineTS.step2Execute propertyId rightmoveData
        landRegistryResult).success
        && truthyAddr (PipelineTS.step2Execute propertyId rightmoveData
        landRegistryResult).address) = true
    · rw [if_pos h2] at h ⊢
      rw [Bool.and_eq_true] at h2
      obtain ⟨hs, ht⟩ := h2
      rcases step2Execute_success_confidence propertyId rightmoveData landRegistryResult hs
        with hc | hc
      · exact ⟨Or.inr (Or.inl hc), ht, by rw [hc]; norm_num⟩
      · exact ⟨Or.inr (Or.inr hc), ht, by rw [hc]; norm_num⟩
    · rw [if_neg h2] at h
      simp at h

/-- Claim C1 (counterexample): with the partner lookup failing, the Rightmove
extraction succeeding with a postcode but no sales history, and the registry
not consulted, the pipeline returns `success = true` with confidence 0.3 —
a successful result whose confidence is neither 1.0 nor 0.9. -/
theorem c1_fallback_confidence_counterexample :
    (PipelineTS.resolvePipeline { success := false } "163926191"
        { success := true, postcode := some "SW1W 8BT" }
        { success := false }).success = true ∧
    (PipelineTS.resolvePipeline { success := false } "163926191"
        { success := true, postcode := some "SW1W 8BT" }
        { success := false }).confidence = 3/10 ∧
    ¬((PipelineTS.resolvePipeline { success := false } "163926191"
        { success := true, postcode := some "SW1W 8BT" }
        { success := false }).confidence = 1 ∨
      (PipelineTS.resolvePipeline { success := false } "163926191"
        { success := true, postcode := some "SW1W 8BT" }
        { success := false }).confidence = 9/10) := by
  have hc : (PipelineTS.resolvePipeline { success := false } "163926191"
      { success := true, postcode := some "SW1W 8BT" }
      { success := false }).confidence = 3/10 := rfl
  refine ⟨rfl, hc, ?_⟩
  rw [hc]
  rintro (h | h) <;> norm_num at h

/-- Witness for C1 at the partner-lookup scenario of the specification:
identifier 163926191 with a successful partner response carrying
`12 Blenheim Crescent, London`. -/
theorem c1_witness :
    (PipelineTS.resolvePipeline
        { success := true,
          data := some { fullAddress := some "12 Blenheim Crescent, London" } }
        "163926191" { success := false } { success := false }).success = true ∧
    (((PipelineTS.resolvePipeline
        { success := true,
          data := some { fullAddress := some "12 Blenheim Crescent, London" } }
        "163926191" { success := false } { success := false }).confidence = 1 ∨
      (PipelineTS.resolvePipeline
        { success := true,
          data := some { fullAddress := some "12 Blenheim Crescent, London" } }
        "163926191" { success := false } { success := false }).confidence = 9/10 ∨
      (PipelineTS.resolvePipeline
        { success := true,
          data := some { fullAddress := some "12 Blenheim Crescent, London" } }
        "163926191" { success := false } { success := false }).confidence = 3/10) ∧
     truthyAddr (PipelineTS.resolvePipeline
        { success := true,
          data := some { fullAddress := some "12 Blenheim Crescent, London" } }
        "163926191" { success := false } { success := false }).address = true ∧
     0 < (PipelineTS.resolvePipeline
        { success := true,
          data := some { fullAddress := some "12 Blenheim Crescent, London" } }
        "163926191" { success := false } { success := false }).confidence) :=
  ⟨rfl, c1_success_confidence_values _ _ _ _ rfl⟩

theorem executePipelineAux_all_fail :
    ∀ (steps : List PipelineTS.PStep) (n : Nat) (errors : List String),
      (∀ p ∈ steps, PipelineTS.stepFails p = true) →
      PipelineTS.executePipelineAux n errors steps =
        { success := false, confidence := 0, source := "error", stepUsed := 0,
          allErrors := errors
            ++ (List.enumFrom n steps).map (fun p => PipelineTS.stepErrorEntry p.1 p.2),
          error := some ("All pipeline steps failed. Errors: "
            ++ String.intercalate "; " (errors
              ++ (List.enumFrom n steps).map (fun p => PipelineTS.stepErrorEntry p.1 p.2))) } := by
  intro steps
  induction steps with
  | nil => intro n errors _; simp [PipelineTS.executePipelineAux]
  | cons p rest ih =>
    intro n errors hfail
    obtain ⟨pname, poutcome⟩ := p
    have hrest : ∀ q ∈ rest, PipelineTS.stepFails q = true :=
      fun q hq => hfail q (List.mem_cons_of_mem _ hq)
    cases poutcome with
    | ok r =>
      have hp2 : (!(r.success && truthyAddr r.address)) = true :=
        hfail _ (List.mem_cons_self _ rest)
      have hcond : (r.success && truthyAddr r.address) = false := by
        cases hb : (r.success && truthyAddr r.address)
        · rfl
        · rw [hb] at hp2; simp at hp2
      have hstep : PipelineTS.executePipelineAux n errors
            (⟨pname, .ok r⟩ :: rest)
          = PipelineTS.executePipelineAux (n + 1)
            (errors ++ [PipelineTS.stepFailMsg n pname r]) rest := by
        show (if (r.success && truthyAddr r.address) = true then _ else _) = _
        rw [hcond]
        simp
      rw [hstep, ih (n + 1) (errors ++ [PipelineTS.stepFailMsg n pname r]) hrest]
      have hentry : (List.enumFrom n ((⟨pname, .ok r⟩ : PipelineTS.PStep) :: rest)).map
            (fun q => PipelineTS.stepErrorEntry q.1 q.2)
          = PipelineTS.stepFailMsg n pname r
            :: (List.enumFrom (n + 1) rest).map (fun q => PipelineTS.stepErrorEntry q.1 q.2) :=
        rfl
      rw [hentry]
      simp [List.append_assoc]
    | threw m =>
      have hstep : PipelineTS.executePipelineAux n errors
            (⟨pname, .threw m⟩ :: rest)
          = PipelineTS.executePipelineAux (n + 1)
            (errors ++ [PipelineTS.stepThrewMsg n m]) rest := rfl
      rw [hstep, ih (n + 1) (errors ++ [PipelineTS.stepThrewMsg n m]) hrest]
      have hentry : (List.enumFrom n ((⟨pname, .threw m⟩ : PipelineTS.PStep) :: rest)).map
            (fun q => PipelineTS.stepErrorEntry q.1 q.2)
          = PipelineTS.stepThrewMsg n m
            :: (List.enumFrom (n + 1) rest).map (fun q => PipelineTS.stepErrorEntry q.1 q.2) :=
        rfl
      rw [hentry]
      simp [List.append_assoc]

/-- Claim C4: when every configured step fails, the pipeline attempts them
all (one recorded error entry per attempted step, none aborting the loop)
and returns a failure tagged `error` whose message concatenates every
error string of every attempted step. -/
theorem c4_all_steps_fail_aggregate :
    ∀ steps : List PipelineTS.PStep,
      (∀ p ∈ steps, PipelineTS.stepFails p = true) →
      PipelineTS.executePipeline steps =
        { success := false, confidence := 0, source := "error", stepUsed := 0,
          allErrors := PipelineTS.pipelineErrors steps,
          error := some ("All pipeline steps failed. Errors: "
            ++ String.intercalate "; " (PipelineTS.pipelineErrors steps)) } ∧
      (PipelineTS.pipelineErrors steps).length = steps.length := by
  intro steps hfail
  constructor
  · have := executePipelineAux_all_fail steps 1 [] hfail
    simpa [PipelineTS.executePipeline, PipelineTS.pipelineErrors] using this
  · simp only [PipelineTS.pipelineErrors, List.length_map]
    exact length_enumFrom 1 steps

/-- Witness for C4: a pipeline run in which the partner step fails and the
Rightmove step throws records one error entry per step and aggregates both. -/
theorem c4_witness :
    (∀ p ∈ ([
        { name := "Friend API",
          outcome := .ok { success := false, confidence := 0,
                           error := some "API returned success=false" } },
        { name := "Rightmove + Land Registry",
          outcome := .threw "Playwright not available" }] : List PipelineTS.PStep),
      PipelineTS.stepFails p = true) ∧
    (PipelineTS.executePipeline [
        { name := "Friend API",
          outcome := .ok { success := false, confidence := 0,
                           error := some "API returned success=false" } },
        { name := "Rightmove + Land Registry",
          outcome := .threw "Playwright not available" }] =
      { success := false, confidence := 0, source := "error", stepUsed := 0,
        allErrors := PipelineTS.pipelineErrors [
          { name := "Friend API",
            outcome := .ok { success := false, confidence := 0,
                             error := some "API returned success=false" } },
          { name := "Rightmove + Land Registry",
            outcome := .threw "Playwright not available" }],
        error := some ("All pipeline steps failed. Errors: "
          ++ String.intercalate "; " (PipelineTS.pipelineErrors [
            { name := "Friend API",
              outcome := .ok { success := false, confidence := 0,
                               error := some "API returned success=false" } },
            { name := "Rightmove + Land Registry",
              outcome := .threw "Playwright not available" }])) } ∧
      (PipelineTS.pipelineErrors [
          { name := "Friend API",
            outcome := .ok { success := false, confidence := 0,
                             error := some "API returned success=false" } },
          { name := "Rightmove + Land Registry",
            outcome := .threw "Playwright not available" }]).length = 2) :=
  ⟨by decide, c4_all_steps_fail_aggregate _ (by decide)⟩

theorem filter_slot_opt (o : Option String) :
    List.filter (fun part => jsTrim part ≠ "")
        (if jsTruthy o then [o.getD ""] else [])
      = List.filter (fun part => jsTrim part ≠ "") [o.getD ""] := by
  cases o with
  | none => decide
  | some s =>
    by_cases hs : s = ""
    · subst hs; decide
    · have ht : jsTruthy (some s) = true := by simp [jsTruthy, hs]
      rw [ht]
      simp

theorem filter_slot_street (o : Option String) :
    List.filter (fun part => jsTrim part ≠ "")
        (if jsTruthy o then [Registry.formatStreet (o.getD "")] else [])
      = List.filter (fun part => jsTrim part ≠ "") [(o.map Registry.formatStreet).getD ""] := by
  cases o with
  | none => decide
  | some s =>
    by_cases hs : s = ""
    · subst hs; decide
    · have ht : jsTruthy (some s) = true := by simp [jsTruthy, hs]
      rw [ht]
      simp

theorem isLondonPostcode_eq_spec (pc : Option String) :
    Registry.isLondonPostcode pc
      = (match pc with
         | some p => p ≠ "" && Registry.londonPrefixes.any (fun q => jsStartsWith p q)
         | none => false) := by
  cases pc with
  | none => rfl
  | some p =>
    simp [Registry.isLondonPostcode, Registry.londonPrefixes, jsTruthy,
      List.any_cons, List.any_nil, Bool.or_assoc]

theorem filter_slot_london (c : Bool) :
    List.filter (fun part => jsTrim part ≠ "")
        (if c then ["London"] else [])
      = List.filter (fun part => jsTrim part ≠ "") [if c then "London" else ""] := by
  cases c <;> decide

theorem addressStrings_spec (row : Registry.Row) :
    String.intercalate ", "
        ((Registry.addressStrings row).filter (fun part => jsTrim part ≠ ""))
      = Registry.specRowAddress row.paon row.street row.postcode := by
  simp only [Registry.addressStrings, Registry.specRowAddress]
  congr 1
  have hsplit : ([row.paon.getD "", (row.street.map Registry.formatStreet).getD "",
      if (match row.postcode with
          | some p => p ≠ "" && Registry.londonPrefixes.any (fun q => jsStartsWith p q)
          | none => false) = true then "London" else "",
      row.postcode.getD ""] : List String)
      = [row.paon.getD ""] ++ [(row.street.map Registry.formatStreet).getD ""]
        ++ [if (match row.postcode with
            | some p => p ≠ "" && Registry.londonPrefixes.any (fun q => jsStartsWith p q)
            | none => false) = true then "London" else ""]
        ++ [row.postcode.getD ""] := rfl
  rw [hsplit]
  rw [List.filter_append, List.filter_append, List.filter_append,
      List.filter_append, List.filter_append, List.filter_append]
  rw [filter_slot_opt row.paon, filter_slot_street row.street,
      filter_slot_opt row.postcode]
  rw [filter_slot_london (Registry.isLondonPostcode row.postcode),
      isLondonPostcode_eq_spec row.postcode]

theorem except_bind_ok {ε α β : Type} (a : α) (f : α → Except ε β) :
    Except.bind (Except.ok a) f = f a := rfl

theorem jsPartFilter_str (ss : List String) :
    Registry.jsPartFilter (ss.map Registry.JsValue.str)
      = Except.ok (ss.filter (fun part => jsTrim part ≠ "")) := by
  induction ss with
  | nil => rfl
  | cons s rest ih =>
    by_cases h1 : jsTrim s = ""
    · by_cases h2 : s = ""
      · subst h2
        simp [Registry.jsPartFilter, ih, except_bind_ok, List.filter_cons, h1]
      · simp [Registry.jsPartFilter, ih, except_bind_ok, List.filter_cons, h1, h2]
    · have h2 : s ≠ "" := by
        intro hs
        apply h1
        rw [hs]
        rfl
      simp [Registry.jsPartFilter, ih, except_bind_ok, List.filter_cons, h1, h2]

theorem transactionIdOf_ok (o : Option String) (h : o ≠ some "") :
    ∃ s, Registry.transactionIdOf o = Except.ok s := by
  cases o with
  | none => exact ⟨"Unknown", rfl⟩
  | some v =>
    have hv : v ≠ "" := fun hveq => h (by rw [hveq])
    refine ⟨if Registry.jsSplitLast v '/' = "" then "Unknown"
            else Registry.jsSplitLast v '/', ?_⟩
    simp [Registry.transactionIdOf, Registry.getValueJs, hv]

theorem uriValueOf_ok (o : Option String) (h : o ≠ some "") :
    ∃ s, Registry.uriValueOf o = Except.ok s := by
  cases o with
  | none => exact ⟨"unknown", rfl⟩
  | some v =>
    have hv : v ≠ "" := fun hveq => h (by rw [hveq])
    refine ⟨jsOr (Registry.getUriValue (some v)) "unknown", ?_⟩
    simp [Registry.uriValueOf, Registry.getValueJs, hv]

theorem buildAddressParts_ok (row : Registry.Row)
    (hpaon : row.paon ≠ some "") (hstreet : row.street ≠ some "")
    (hpc : row.postcode ≠ some "") :
    Registry.buildAddressParts row
      = Except.ok ((Registry.addressStrings row).map Registry.JsValue.str) := by
  obtain ⟨tx, pp, dt, pa, st, pc, pt, et, nb⟩ := row
  simp only at hpaon hstreet hpc
  cases pa with
  | none =>
    cases st with
    | none =>
      cases pc with
      | none => rfl
      | some sc =>
        have hsc : sc ≠ "" := fun hh => hpc (by rw [hh])
        simp [Registry.buildAddressParts, Registry.addressStrings,
          Registry.getValueJs, Registry.JsValue.truthy, Registry.isLondonPostcode,
          jsTruthy, except_bind_ok, apply_ite (List.map Registry.JsValue.str), hsc]
    | some ss =>
      have hss : ss ≠ "" := fun hh => hstreet (by rw [hh])
      cases pc with
      | none =>
        simp [Registry.buildAddressParts, Registry.addressStrings,
          Registry.getValueJs, Registry.JsValue.truthy, Registry.isLondonPostcode,
          jsTruthy, except_bind_ok, apply_ite (List.map Registry.JsValue.str), hss]
      | some sc =>
        have hsc : sc ≠ "" := fun hh => hpc (by rw [hh])
        simp [Registry.buildAddressParts, Registry.addressStrings,
          Registry.getValueJs, Registry.JsValue.truthy, Registry.isLondonPostcode,
          jsTruthy, except_bind_ok, apply_ite (List.map Registry.JsValue.str), hss, hsc]
  | some sp =>
    have hsp : sp ≠ "" := fun hh => hpaon (by rw [hh])
    cases st with
    | none =>
      cases pc with
      | none =>
        simp [Registry.buildAddressParts, Registry.addressStrings,
          Registry.getValueJs, Registry.JsValue.truthy, Registry.isLondonPostcode,
          jsTruthy, except_bind_ok, apply_ite (List.map Registry.JsValue.str), hsp]
      | some sc =>
        have hsc : sc ≠ "" := fun hh => hpc (by rw [hh])
        simp [Registry.buildAddressParts, Registry.addressStrings,
          Registry.getValueJs, Registry.JsValue.truthy, Registry.isLondonPostcode,
          jsTruthy, except_bind_ok, apply_ite (List.map Registry.JsValue.str), hsp, hsc]
    | some ss =>
      have hss : ss ≠ "" := fun hh => hstreet (by rw [hh])
      cases pc with
      | none =>
        simp [Registry.buildAddressParts, Registry.addressStrings,
          Registry.getValueJs, Registry.JsValue.truthy, Registry.isLondonPostcode,
          jsTruthy, except_bind_ok, apply_ite (List.map Registry.JsValue.str), hsp, hss]
      | some sc =>
        have hsc : sc ≠ "" := fun hh => hpc (by rw [hh])
        simp [Registry.buildAddressParts, Registry.addressStrings,
          Registry.getValueJs, Registry.JsValue.truthy, Registry.isLondonPostcode,
          jsTruthy, except_bind_ok, apply_ite (List.map Registry.JsValue.str), hsp, hss, hsc]

/-- Claim C7 (amended): on every matched row whose bindings all carry
non-empty values, extraction succeeds and the address is exactly the
deterministic transform the specification describes — building identifier,
title-cased street, `London` iff the postcode starts with one of SW, W, E,
N, S, NW, SE, then the postcode, comma-joined with blank parts skipped — and
on the row (paon 6, street whistler square, postcode SW1W 8BT) it yields
`6, Whistler Square, London, SW1W 8BT`.  A binding with an empty `.value`
instead makes the extraction throw a TypeError (see the counterexample). -/
theorem c7_extract_transform_nonempty :
    (∀ row : Registry.Row, Registry.noEmptyBindings row = true →
      Except.map (fun d => d.fullAddress) (Registry.extractPropertyDetailsE row)
        = Except.ok (Registry.specRowAddress row.paon row.street row.postcode)) ∧
    Except.map (fun d => d.fullAddress)
        (Registry.extractPropertyDetailsE
          { paon := some "6", street := some "whistler square",
            postcode := some "SW1W 8BT" })
      = Except.ok "6, Whistler Square, London, SW1W 8BT" := by
  refine ⟨fun row hrow => ?_, rfl⟩
  obtain ⟨htx, hpp, hdt, hpa, hst, hpc, hpt, het, hnb⟩ :
      row.transx ≠ some "" ∧ row.pricePaid ≠ some "" ∧ row.date ≠ some "" ∧
      row.paon ≠ some "" ∧ row.street ≠ some "" ∧ row.postcode ≠ some "" ∧
      row.propType ≠ some "" ∧ row.estateType ≠ some "" ∧
      row.newBuild ≠ some "" := by
    simpa [Registry.noEmptyBindings, and_assoc] using hrow
  obtain ⟨tid, htid⟩ := transactionIdOf_ok row.transx htx
  obtain ⟨ptv, hptv⟩ := uriValueOf_ok row.propType hpt
  obtain ⟨etv, hetv⟩ := uriValueOf_ok row.estateType het
  have hparts := buildAddressParts_ok row hpa hst hpc
  have hfilter := jsPartFilter_str (Registry.addressStrings row)
  simp only [Registry.extractPropertyDetailsE, hparts, except_bind_ok, htid,
    hfilter, hptv, hetv, Except.map]
  exact congrArg Except.ok (addressStrings_spec row)

/-- Claim C7 (counterexample): on a matched row carrying a street binding
with an empty `.value`, `getValue` returns the binding object and
`street.toLowerCase()` throws a TypeError, so the extraction produces no
address at all — the step fails instead of yielding the claimed comma-joined
transform. -/
theorem c7_empty_value_counterexample :
    Registry.extractPropertyDetailsE
        { paon := some "6", street := some "", postcode := some "SW1W 8BT" }
      = Except.error "TypeError: street.toLowerCase is not a function" ∧
    (Registry.extractPropertyDetailsE
        { paon := some "6", street := some "", postcode := some "SW1W 8BT" }).toOption
      = none :=
  ⟨rfl, rfl⟩

/-- Witness for C7 at the concrete Whistler Square row, whose bindings all
carry non-empty values. -/
theorem c7_witness :
    Registry.noEmptyBindings
        { paon := some "6", street := some "whistler square",
          postcode := some "SW1W 8BT" } = true ∧
    Except.map (fun d => d.fullAddress)
        (Registry.extractPropertyDetailsE
          { paon := some "6", street := some "whistler square",
            postcode := some "SW1W 8BT" })
      = Except.ok (Registry.specRowAddress (some "6") (some "whistler square")
          (some "SW1W 8BT")) :=
  ⟨by decide, c7_extract_transform_nonempty.1 _ (by decide)⟩

theorem tryQuery_eq_none (env : Registry.Env) (q : Registry.Query) (stratName : String)
    (h : Registry.hit env q = false) :
    Registry.tryQuery env q stratName = none := by
  unfold Registry.hit at h
  simp only [Registry.tryQuery]
  rw [h]
  simp

theorem tryQuery_some (env : Registry.Env) (q : Registry.Query) (stratName : String)
    (h : Registry.hit env q = true) :
    ∃ out, Registry.tryQuery env q stratName = some out ∧ out.success = true := by
  unfold Registry.hit at h
  rw [Bool.and_eq_true] at h
  obtain ⟨hs, hlen⟩ := h
  cases hres : (env q).results with
  | nil => rw [hres] at hlen; simp at hlen
  | cons row rows =>
    refine ⟨{ success := true,
              fullAddress := some (Registry.extractPropertyDetails row).fullAddress,
              strategy := some stratName,
              verifiedData := some (Registry.extractPropertyDetails row) }, ?_, rfl⟩
    simp only [Registry.tryQuery, hres, hs]
    simp

theorem runSaleQueries_spec (env : Registry.Env) :
    ∀ qs : List (Registry.Query × String),
      (Registry.runSaleQueries env qs).2
          = Registry.attemptsUpToFirstHit env (qs.map Prod.fst) ∧
      ((Registry.runSaleQueries env qs).1 = none ↔
          ∀ q ∈ qs.map Prod.fst, Registry.hit env q = false) ∧
      (∀ out, (Registry.runSaleQueries env qs).1 = some out → out.success = true) := by
  intro qs
  induction qs with
  | nil =>
    refine ⟨rfl, by simp [Registry.runSaleQueries], ?_⟩
    intro out h
    simp [Registry.runSaleQueries] at h
  | cons p rest ih =>
    obtain ⟨q, stratName⟩ := p
    obtain ⟨ih1, ih2, ih3⟩ := ih
    cases hq : Registry.hit env q with
    | true =>
      obtain ⟨out, hout, hsucc⟩ := tryQuery_some env q stratName hq
      have hrun : Registry.runSaleQueries env ((q, stratName) :: rest) = (some out, [q]) := by
        simp only [Registry.runSaleQueries, hout]
      rw [hrun]
      refine ⟨?_, ?_, ?_⟩
      · simp [Registry.attemptsUpToFirstHit, hq]
      · constructor
        · intro h; simp at h
        · intro hall
          exfalso
          have := hall q (by simp)
          rw [hq] at this
          cases this
      · intro out2 h2
        injection h2 with hh
        rw [← hh]
        exact hsucc
    | false =>
      have hnone := tryQuery_eq_none env q stratName hq
      have hrun : Registry.runSaleQueries env ((q, stratName) :: rest)
          = ((Registry.runSaleQueries env rest).1,
             q :: (Registry.runSaleQueries env rest).2) := by
        simp only [Registry.runSaleQueries, hnone]
      rw [hrun]
      refine ⟨?_, ?_, ?_⟩
      · simp only [List.map_cons, Registry.attemptsUpToFirstHit, hq]
        simp [ih1]
      · simp only [List.map_cons, List.forall_mem_cons]
        constructor
        · intro h; exact ⟨hq, ih2.mp h⟩
        · intro h; exact ih2.mpr h.2
      · exact ih3

theorem attemptsUpToFirstHit_append_miss (env : Registry.Env) :
    ∀ (l1 l2 : List Registry.Query), (∀ q ∈ l1, Registry.hit env q = false) →
      Registry.attemptsUpToFirstHit env (l1 ++ l2)
        = l1 ++ Registry.attemptsUpToFirstHit env l2 := by
  intro l1
  induction l1 with
  | nil => intro l2 _; rfl
  | cons q l1 ih =>
    intro l2 h
    have hq := h q (by simp)
    have hrec := ih l2 (fun r hr => h r (by simp [hr]))
    simp only [List.cons_append, Registry.attemptsUpToFirstHit, hq]
    simp only [Bool.false_eq_true, if_false, List.append_eq]
    rw [hrec]

theorem attemptsUpToFirstHit_all_miss (env : Registry.Env) :
    ∀ l : List Registry.Query, (∀ q ∈ l, Registry.hit env q = false) →
      Registry.attemptsUpToFirstHit env l = l := by
  intro l h
  have h2 := attemptsUpToFirstHit_append_miss env l [] h
  simpa [show Registry.attemptsUpToFirstHit env [] = [] from rfl] using h2

theorem attemptsUpToFirstHit_append_hit (env : Registry.Env) :
    ∀ (l1 l2 : List Registry.Query), ¬(∀ q ∈ l1, Registry.hit env q = false) →
      Registry.attemptsUpToFirstHit env (l1 ++ l2)
        = Registry.attemptsUpToFirstHit env l1 := by
  intro l1
  induction l1 with
  | nil => intro l2 h; exact absurd (by simp) h
  | cons q l1 ih =>
    intro l2 h
    cases hq : Registry.hit env q with
    | true => simp [Registry.attemptsUpToFirstHit, hq]
    | false =>
      have h1 : ¬(∀ r ∈ l1, Registry.hit env r = false) := by
        intro hall
        exact h (by
          intro r hr
          rcases List.mem_cons.mp hr with rfl | hr2
          · exact hq
          · exact hall r hr2)
      have hrec := ih l2 h1
      simp only [List.cons_append, Registry.attemptsUpToFirstHit, hq]
      simp only [Bool.false_eq_true, if_false, List.append_eq]
      rw [hrec]

theorem attemptsUpToFirstHit_subset (env : Registry.Env) :
    ∀ l : List Registry.Query, ∀ q ∈ Registry.attemptsUpToFirstHit env l, q ∈ l := by
  intro l
  induction l with
  | nil =>
    intro q hq
    simp [Registry.attemptsUpToFirstHit] at hq
  | cons r l ih =>
    intro q hq
    simp only [Registry.attemptsUpToFirstHit] at hq
    by_cases hr : Registry.hit env r = true
    · rw [if_pos hr] at hq
      simp at hq
      simp [hq]
    · rw [if_neg hr] at hq
      rcases List.mem_cons.mp hq with rfl | hq2
      · simp
      · simp [ih q hq2]

theorem searchSalesWithPostcode_spec (env : Registry.Env) (postcode : String) :
    ∀ sales : List Sale,
      (Registry.searchSalesWithPostcode env postcode sales).2
          = Registry.attemptsUpToFirstHit env
              (Registry.nestedAttemptsWithPostcode postcode sales) ∧
      ((Registry.searchSalesWithPostcode env postcode sales).1 = none ↔
          ∀ q ∈ Registry.nestedAttemptsWithPostcode postcode sales,
            Registry.hit env q = false) ∧
      (∀ out, (Registry.searchSalesWithPostcode env postcode sales).1 = some out →
          out.success = true) := by
  intro sales
  induction sales with
  | nil =>
    refine ⟨rfl, by simp [Registry.searchSalesWithPostcode,
      Registry.nestedAttemptsWithPostcode], ?_⟩
    intro out h
    simp [Registry.searchSalesWithPostcode] at h
  | cons sale rest ih =>
    obtain ⟨ih1, ih2, ih3⟩ := ih
    obtain ⟨hr1, hr2, hr3⟩ :=
      runSaleQueries_spec env (Registry.saleQueriesWithPostcode postcode sale)
    have hnest : Registry.nestedAttemptsWithPostcode postcode (sale :: rest)
        = (Registry.saleQueriesWithPostcode postcode sale).map Prod.fst
          ++ Registry.nestedAttemptsWithPostcode postcode rest := by
      simp [Registry.nestedAttemptsWithPostcode]
    cases hfst : (Registry.runSaleQueries env
        (Registry.saleQueriesWithPostcode postcode sale)).1 with
    | some out =>
      have hsearch : Registry.searchSalesWithPostcode env postcode (sale :: rest)
          = (some out,
             (Registry.runSaleQueries env
               (Registry.saleQueriesWithPostcode postcode sale)).2) := by
        simp only [Registry.searchSalesWithPostcode]
        rcases hp : Registry.runSaleQueries env
            (Registry.saleQueriesWithPostcode postcode sale) with ⟨o1, t1⟩
        rw [hp] at hfst
        simp at hfst
        subst hfst
        rfl
      have hnotall : ¬(∀ q ∈ (Registry.saleQueriesWithPostcode postcode sale).map Prod.fst,
          Registry.hit env q = false) := by
        intro hall
        have := hr2.mpr hall
        rw [hfst] at this
        simp at this
      rw [hsearch, hnest]
      refine ⟨?_, ?_, ?_⟩
      · rw [attemptsUpToFirstHit_append_hit env _ _ hnotall, hr1]
      · constructor
        · intro h; simp at h
        · intro hall
          exfalso
          exact hnotall (fun q hq => hall q (by simp [hq]))
      · intro out2 h2
        injection h2 with hh
        subst hh
        exact hr3 out hfst
    | none =>
      have hallmiss : ∀ q ∈ (Registry.saleQueriesWithPostcode postcode sale).map Prod.fst,
          Registry.hit env q = false := hr2.mp hfst
      have hsearch : Registry.searchSalesWithPostcode env postcode (sale :: rest)
          = ((Registry.searchSalesWithPostcode env postcode rest).1,
             (Registry.runSaleQueries env
               (Registry.saleQueriesWithPostcode postcode sale)).2
               ++ (Registry.searchSalesWithPostcode env postcode rest).2) := by
        simp only [Registry.searchSalesWithPostcode]
        rcases hp : Registry.runSaleQueries env
            (Registry.saleQueriesWithPostcode postcode sale) with ⟨o1, t1⟩
        rw [hp] at hfst
        simp at hfst
        subst hfst
        rfl
      rw [hsearch, hnest]
      refine ⟨?_, ?_, ?_⟩
      · rw [attemptsUpToFirstHit_append_miss env _ _ hallmiss, hr1, ih1,
          attemptsUpToFirstHit_all_miss env _ hallmiss]
      · simp only [List.forall_mem_append]
        constructor
        · intro h; exact ⟨hallmiss, ih2.mp h⟩
        · intro h; exact ih2.mpr h.2
      · exact ih3

theorem searchSalesWithOutcode_spec (env : Registry.Env) (outcode : String) :
    ∀ sales : List Sale,
      (Registry.searchSalesWithOutcode env outcode sales).2
          = Registry.attemptsUpToFirstHit env
              (Registry.nestedAttemptsWithOutcode outcode sales) ∧
      ((Registry.searchSalesWithOutcode env outcode sales).1 = none ↔
          ∀ q ∈ Registry.nestedAttemptsWithOutcode outcode sales,
            Registry.hit env q = false) ∧
      (∀ out, (Registry.searchSalesWithOutcode env outcode sales).1 = some out →
          out.success = true) := by
  intro sales
  induction sales with
  | nil =>
    refine ⟨rfl, by simp [Registry.searchSalesWithOutcode,
      Registry.nestedAttemptsWithOutcode], ?_⟩
    intro out h
    simp [Registry.searchSalesWithOutcode] at h
  | cons sale rest ih =>
    obtain ⟨ih1, ih2, ih3⟩ := ih
    obtain ⟨hr1, hr2, hr3⟩ :=
      runSaleQueries_spec env (Registry.saleQueriesWithOutcode outcode sale)
    have hnest : Registry.nestedAttemptsWithOutcode outcode (sale :: rest)
        = (Registry.saleQueriesWithOutcode outcode sale).map Prod.fst
          ++ Registry.nestedAttemptsWithOutcode outcode rest := by
      simp [Registry.nestedAttemptsWithOutcode]
    cases hfst : (Registry.runSaleQueries env
        (Registry.saleQueriesWithOutcode outcode sale)).1 with
    | some out =>
      have hsearch : Registry.searchSalesWithOutcode env outcode (sale :: rest)
          = (some out,
             (Registry.runSaleQueries env
               (Registry.saleQueriesWithOutcode outcode sale)).2) := by
        simp only [Registry.searchSalesWithOutcode]
        rcases hp : Registry.runSaleQueries env
            (Registry.saleQueriesWithOutcode outcode sale) with ⟨o1, t1⟩
        rw [hp] at hfst
        simp at hfst
        subst hfst
        rfl
      have hnotall : ¬(∀ q ∈ (Registry.saleQueriesWithOutcode outcode sale).map Prod.fst,
          Registry.hit env q = false) := by
        intro hall
        have := hr2.mpr hall
        rw [hfst] at this
        simp at this
      rw [hsearch, hnest]
      refine ⟨?_, ?_, ?_⟩
      · rw [attemptsUpToFirstHit_append_hit env _ _ hnotall, hr1]
      · constructor
        · intro h; simp at h
        · intro hall
          exfalso
          exact hnotall (fun q hq => hall q (by simp [hq]))
      · intro out2 h2
        injection h2 with hh
        subst hh
        exact hr3 out hfst
    | none =>
      have hallmiss : ∀ q ∈ (Registry.saleQueriesWithOutcode outcode sale).map Prod.fst,
          Registry.hit env q = false := hr2.mp hfst
      have hsearch : Registry.searchSalesWithOutcode env outcode (sale :: rest)
          = ((Registry.searchSalesWithOutcode env outcode rest).1,
             (Registry.runSaleQueries env
               (Registry.saleQueriesWithOutcode outcode sale)).2
               ++ (Registry.searchSalesWithOutcode env outcode rest).2) := by
        simp only [Registry.searchSalesWithOutcode]
        rcases hp : Registry.runSaleQueries env
            (Registry.saleQueriesWithOutcode outcode sale) with ⟨o1, t1⟩
        rw [hp] at hfst
        simp at hfst
        subst hfst
        rfl
      rw [hsearch, hnest]
      refine ⟨?_, ?_, ?_⟩
      · rw [attemptsUpToFirstHit_append_miss env _ _ hallmiss, hr1, ih1,
          attemptsUpToFirstHit_all_miss env _ hallmiss]
      · simp only [List.forall_mem_append]
        constructor
        · intro h; exact ⟨hallmiss, ih2.mp h⟩
        · intro h; exact ih2.mpr h.2
      · exact ih3

/-- Claim C2: with both outward and inward parts available, the matcher
tries for each sale record, in order, postcode+year+price, postcode+year,
outcode+year+price (outcode truncated from the full postcode), outcode+year,
then the date-range price band, completing all five for one sale record
before moving to the next; it succeeds exactly when some query in this
nested order hits, and the first success (with a truthy address) stops all
further querying of the smart search. -/
theorem c2_full_postcode_strategy_order :
    ∀ (env : Registry.Env) (sales : List Sale) (o i : String),
      o ≠ "" → i ≠ "" → Registry.c2Statement env sales o i := by
  intro env sales o i ho hi
  unfold Registry.c2Statement
  cases sales with
  | nil =>
    refine ⟨rfl, ?_, ?_⟩
    · simp [Registry.searchLandRegistryWithPostcode, Registry.nestedAttemptsWithPostcode]
    · intro hsucc _
      simp [Registry.searchLandRegistryWithPostcode] at hsucc
  | cons s rest =>
    obtain ⟨hs1, hs2, hs3⟩ := searchSalesWithPostcode_spec env (o ++ " " ++ i) (s :: rest)
    rcases hss : Registry.searchSalesWithPostcode env (o ++ " " ++ i) (s :: rest)
      with ⟨o1, t1⟩
    rw [hss] at hs1 hs2 hs3
    simp only at hs1 hs2 hs3
    cases o1 with
    | some out =>
      have hwrap : Registry.searchLandRegistryWithPostcode env (s :: rest) (o ++ " " ++ i)
          = (out, t1) := by
        simp only [Registry.searchLandRegistryWithPostcode]
        rw [if_neg (by simp), hss]
      have hex : ∃ q ∈ Registry.nestedAttemptsWithPostcode (o ++ " " ++ i) (s :: rest),
          Registry.hit env q = true := by
        have hne : ¬(∀ q ∈ Registry.nestedAttemptsWithPostcode (o ++ " " ++ i) (s :: rest),
            Registry.hit env q = false) := by
          intro hall
          have := hs2.mpr hall
          simp at this
        push_neg at hne
        obtain ⟨q, hq, hqne⟩ := hne
        refine ⟨q, hq, ?_⟩
        cases hcase : Registry.hit env q
        · exact absurd hcase hqne
        · rfl
      refine ⟨?_, ?_, ?_⟩
      · rw [hwrap, hs1]
      · rw [hwrap]
        simp only
        constructor
        · intro _; exact hex
        · intro _; exact hs3 out rfl
      · intro hsucc htruthy
        rw [hwrap] at hsucc htruthy
        simp only at hsucc htruthy
        have hcond : (out.success && jsTruthy out.fullAddress) = true := by
          rw [hsucc, htruthy]; rfl
        have hstrats : Registry.smartStrategies (some o) (some i)
            = [{ name := "full-postcode", postcode := o ++ " " ++ i, isOutcode := false },
               { name := "outcode-only", postcode := o, isOutcode := true }] := by
          simp [Registry.smartStrategies, jsTruthy, ho, hi]
        rw [hwrap]
        simp only [Registry.smartPostcodeSearch]
        rw [if_neg (by simp), hstrats]
        simp only [Registry.runStrategies]
        rw [hwrap]
        simp [hcond]
    | none =>
      have hwrap : Registry.searchLandRegistryWithPostcode env (s :: rest) (o ++ " " ++ i)
          = ({ success := false, error := some "No Land Registry matches found" }, t1) := by
        simp only [Registry.searchLandRegistryWithPostcode]
        rw [if_neg (by simp), hss]
      have hallmiss : ∀ q ∈ Registry.nestedAttemptsWithPostcode (o ++ " " ++ i) (s :: rest),
          Registry.hit env q = false := hs2.mp rfl
      refine ⟨?_, ?_, ?_⟩
      · rw [hwrap, hs1]
      · rw [hwrap]
        simp only
        constructor
        · intro h; simp at h
        · intro hexists
          exfalso
          obtain ⟨q, hq, hqt⟩ := hexists
          have := hallmiss q hq
          rw [hqt] at this
          cases this
      · intro hsucc _
        rw [hwrap] at hsucc
        simp at hsucc

/-- Claim C6: for a postal hint with an outward part but no inward part, the
smart search issues only the outcode+year+price and outcode+year queries, in
that order per sale record up to the first hit; no postcode+year+price,
postcode+year or date-range query is ever attempted. -/
theorem c6_outcode_only_strategies :
    ∀ (env : Registry.Env) (sales : List Sale) (o : String),
      o ≠ "" → Registry.c6Statement env sales o := by
  intro env sales o ho
  unfold Registry.c6Statement
  cases sales with
  | nil =>
    refine ⟨rfl, ?_⟩
    intro q hq
    simp [Registry.smartPostcodeSearch] at hq
  | cons s rest =>
    obtain ⟨hs1, _, _⟩ := searchSalesWithOutcode_spec env o (s :: rest)
    have hstrats : Registry.smartStrategies (some o) none
        = [{ name := "outcode-only", postcode := o, isOutcode := true }] := by
      simp [Registry.smartStrategies, jsTruthy, ho]
    have how : (Registry.searchLandRegistryWithOutcode env (s :: rest) o).2
        = (Registry.searchSalesWithOutcode env o (s :: rest)).2 := by
      simp only [Registry.searchLandRegistryWithOutcode]
      rw [if_neg (by simp)]
      rcases Registry.searchSalesWithOutcode env o (s :: rest) with ⟨o1, t1⟩
      cases o1 <;> rfl
    have hsmart : (Registry.smartPostcodeSearch env (s :: rest) (some o) none).2
        = (Registry.searchLandRegistryWithOutcode env (s :: rest) o).2 := by
      simp only [Registry.smartPostcodeSearch]
      rw [if_neg (by simp), hstrats]
      simp only [Registry.runStrategies]
      rcases hso : Registry.searchLandRegistryWithOutcode env (s :: rest) o with ⟨res, t⟩
      by_cases hc : (res.success && jsTruthy res.fullAddress) = true
      · simp [hc]
      · simp [hc, Registry.runStrategies]
    have htrace : (Registry.smartPostcodeSearch env (s :: rest) (some o) none).2
        = Registry.attemptsUpToFirstHit env
            (Registry.nestedAttemptsWithOutcode o (s :: rest)) := by
      rw [hsmart, how, hs1]
    refine ⟨htrace, ?_⟩
    intro q hq
    rw [htrace] at hq
    have hmem := attemptsUpToFirstHit_subset env _ q hq
    simp only [Registry.nestedAttemptsWithOutcode, Registry.saleQueriesWithOutcode,
      List.mem_flatMap, List.map_cons, List.map_nil] at hmem
    obtain ⟨sale, _, hq2⟩ := hmem
    have hq3 : q = Registry.Query.outcodeYearPrice o sale.year sale.rawPrice ∨
        q = Registry.Query.outcodeYear o sale.year := by
      simpa using hq2
    rcases hq3 with rfl | rfl <;> rfl

/-- Witness for C2 at a concrete environment in which the
postcode+year+price query for SW1W 8BT, 2022, 45000000 returns the Whistler
Square row and every other query misses. -/
theorem c2_witness :
    (("SW1W" : String) ≠ "" ∧ ("8BT" : String) ≠ "") ∧
    Registry.c2Statement
      (fun q =>
        if q = Registry.Query.postcodeYearPrice "SW1W 8BT" 2022 45000000 then
          { success := true,
            results := [{ paon := some "6", street := some "whistler square",
                          postcode := some "SW1W 8BT" }] }
        else { success := false, error := some "No results found" })
      [{ year := 2022, rawPrice := 45000000, price := "45,000,000" }]
      "SW1W" "8BT" :=
  ⟨⟨by decide, by decide⟩,
    c2_full_postcode_strategy_order _ _ _ _ (by decide) (by decide)⟩

/-- Witness for C6 at a concrete environment in which the outcode+year+price
query for SW1W, 2022, 45000000 returns a row and every other query misses. -/
theorem c6_witness :
    ("SW1W" : String) ≠ "" ∧
    Registry.c6Statement
      (fun q =>
        if q = Registry.Query.outcodeYearPrice "SW1W" 2022 45000000 then
          { success := true,
            results := [{ paon := some "6", street := some "whistler square",
                          postcode := some "SW1W 8BT" }] }
        else { success := false, error := some "No results found" })
      [{ year := 2022, rawPrice := 45000000, price := "45,000,000" }]
      "SW1W" :=
  ⟨by decide, c6_outcode_only_strategies _ _ _ (by decide)⟩

theorem sum_take_le (xs : List Nat) (n : Nat) : (xs.take n).sum ≤ xs.sum := by
  conv_rhs => rw [← List.take_append_drop n xs]
  rw [List.sum_append]
  exact Nat.le_add_right _ _

theorem take_succ_of_lt {α : Type} (l : List α) (k : Nat) (h : k < l.length) :
    l.take (k + 1) = l.take k ++ [l[k]] := by
  rw [List.take_succ, List.getElem?_eq_getElem h]
  rfl

theorem applyRuns_append_single (r : Bulk.ChunkRun) :
    ∀ (l : List Bulk.ChunkRun) (t : Nat) (p : Bulk.BulkJobProgress),
      Bulk.applyRuns t p (l ++ [r])
        = Bulk.chunkUpdate (t + l.length) (Bulk.applyRuns t p l) r := by
  intro l
  induction l with
  | nil => intro t p; simp [Bulk.applyRuns]
  | cons x l ih =>
    intro t p
    show Bulk.applyRuns (t + 1) (Bulk.chunkUpdate t p x) (l ++ [r]) = _
    rw [ih (t + 1) (Bulk.chunkUpdate t p x)]
    show Bulk.chunkUpdate (t + 1 + l.length) _ r = Bulk.chunkUpdate (t + (l.length + 1)) _ r
    congr 1
    omega

theorem prefix_state (ids : List String) (runs : List Bulk.ChunkRun)
    (hlen : ∀ r ∈ runs, r.outcomes.length = r.chunk.length) :
    ∀ j, j ≤ runs.length →
      (Bulk.applyRuns 0 (Bulk.initBulkJobProgress ids.length 0)
          (runs.take j)).totalProperties = ids.length ∧
      (Bulk.applyRuns 0 (Bulk.initBulkJobProgress ids.length 0)
          (runs.take j)).processedProperties
        = ((runs.take j).map (fun r => r.chunk.length)).sum ∧
      (Bulk.applyRuns 0 (Bulk.initBulkJobProgress ids.length 0)
          (runs.take j)).processedProperties
        = (Bulk.applyRuns 0 (Bulk.initBulkJobProgress ids.length 0)
            (runs.take j)).successfulProperties
          + (Bulk.applyRuns 0 (Bulk.initBulkJobProgress ids.length 0)
              (runs.take j)).failedProperties ∧
      ((Bulk.applyRuns 0 (Bulk.initBulkJobProgress ids.length 0)
          (runs.take j)).completedAt = none ↔
        (j = 0 ∨ (Bulk.applyRuns 0 (Bulk.initBulkJobProgress ids.length 0)
            (runs.take j)).processedProperties < ids.length)) ∧
      ((Bulk.applyRuns 0 (Bulk.initBulkJobProgress ids.length 0)
          (runs.take j)).status = Bulk.JobStatus.completed ↔
        (j ≠ 0 ∧ ids.length ≤ (Bulk.applyRuns 0 (Bulk.initBulkJobProgress ids.length 0)
            (runs.take j)).processedProperties)) ∧
      (Bulk.applyRuns 0 (Bulk.initBulkJobProgress ids.length 0)
          (runs.take j)).status ≠ Bulk.JobStatus.failed := by
  intro j
  induction j with
  | zero =>
    intro _
    refine ⟨rfl, rfl, rfl, by simp [Bulk.applyRuns, Bulk.initBulkJobProgress], ?_, ?_⟩
    · simp [Bulk.applyRuns, Bulk.initBulkJobProgress]
    · simp [Bulk.applyRuns, Bulk.initBulkJobProgress]
  | succ j ih =>
    intro hj1
    have hjlt : j < runs.length := by omega
    obtain ⟨ht, hp, hpsf, hca, hst, _⟩ := ih (by omega)
    have hmem : runs[j] ∈ runs := List.getElem_mem hjlt
    have hcnt : runs[j].outcomes.count true ≤ runs[j].outcomes.length :=
      List.count_le_length true runs[j].outcomes
    have hclen : runs[j].outcomes.length = runs[j].chunk.length := hlen _ hmem
    rw [take_succ_of_lt runs j hjlt,
      applyRuns_append_single runs[j] (runs.take j) 0
        (Bulk.initBulkJobProgress ids.length 0)]
    simp only [Bulk.chunkUpdate, Bulk.updateBulkJobProgress]
    set prev := Bulk.applyRuns 0 (Bulk.initBulkJobProgress ids.length 0) (runs.take j)
      with hprev
    by_cases hcond : prev.processedProperties + runs[j].chunk.length ≥ prev.totalProperties
    · rw [if_pos hcond]
      rw [ht] at hcond
      refine ⟨ht, ?_, ?_, ?_, ?_, ?_⟩
      · rw [List.map_append, List.sum_append, hp]
        rfl
      · omega
      · rw [if_pos rfl]
        constructor
        · intro h; exact Option.noConfusion h
        · intro h
          rcases h with h | h
          · exact ((by omega : False)).elim
          · exact ((by omega : False)).elim
      · constructor
        · intro _; exact ⟨by omega, hcond⟩
        · intro _; rfl
      · decide
    · rw [if_neg hcond]
      rw [ht] at hcond
      refine ⟨ht, ?_, ?_, ?_, ?_, ?_⟩
      · rw [List.map_append, List.sum_append, hp]
        rfl
      · omega
      · rw [if_neg (by decide)]
        rw [hca]
        constructor
        · intro _; right; omega
        · intro _; right; omega
      · constructor
        · intro h; exact absurd h (by decide)
        · intro h; exact absurd h.2 (by omega)
      · decide

/-- Claim C3: after every progress update of a batch whose chunk completions
are a store-serialized reordering of the enqueued chunks, the progress
record satisfies processed = succeeded + failed, all counters are
monotonically non-decreasing, the status becomes `completed` (with
`completedAt` set) exactly when processed reaches total, no transition
leaves `completed`, and the batch as a whole is never marked `failed`. -/
theorem c3_progress_invariants :
    ∀ (ids : List String) (runs : List Bulk.ChunkRun),
      (∀ r ∈ runs, r.outcomes.length = r.chunk.length) →
      (runs.map (fun r => r.chunk)).Perm (Bulk.chunkArray ids 50) →
      ∀ k, k < runs.length → Bulk.c3Statement ids runs k := by
  intro ids runs hlen hperm k hk
  unfold Bulk.c3Statement Bulk.progressAfter
  obtain ⟨ht1, hp1, hpsf1, hca1, hst1, hnf1⟩ := prefix_state ids runs hlen (k + 1) (by omega)
  obtain ⟨ht0, hp0, hpsf0, hca0, hst0, _⟩ := prefix_state ids runs hlen k (by omega)
  have hsum_all : (runs.map (fun r => r.chunk.length)).sum = ids.length := by
    have hperm2 : (runs.map (fun r => r.chunk.length)).Perm
        ((Bulk.chunkArray ids 50).map List.length) := by
      have hmapped := hperm.map List.length
      simpa [List.map_map, Function.comp] using hmapped
    rw [hperm2.sum_eq, ← List.length_flatten, chunkArray_flatten ids 50 (by omega)]
  have hle : (Bulk.applyRuns 0 (Bulk.initBulkJobProgress ids.length 0)
      (runs.take (k + 1))).processedProperties ≤ ids.length := by
    rw [hp1, List.map_take]
    calc ((runs.map (fun r => r.chunk.length)).take (k + 1)).sum
        ≤ (runs.map (fun r => r.chunk.length)).sum := sum_take_le _ _
      _ = ids.length := hsum_all
  have hstep : Bulk.applyRuns 0 (Bulk.initBulkJobProgress ids.length 0)
        (runs.take (k + 1))
      = Bulk.chunkUpdate (0 + (runs.take k).length)
          (Bulk.applyRuns 0 (Bulk.initBulkJobProgress ids.length 0) (runs.take k))
          runs[k] := by
    rw [take_succ_of_lt runs k hk, applyRuns_append_single]
  have hpm : (Bulk.applyRuns 0 (Bulk.initBulkJobProgress ids.length 0)
        (runs.take k)).processedProperties
      ≤ (Bulk.applyRuns 0 (Bulk.initBulkJobProgress ids.length 0)
        (runs.take (k + 1))).processedProperties := by
    rw [hstep]; exact Nat.le_add_right _ _
  refine ⟨by omega, hpm, ?_, ?_, ?_, ?_, hnf1, ?_⟩
  · rw [hstep]; exact Nat.le_add_right _ _
  · rw [hstep]; exact Nat.le_add_right _ _
  · rw [ht1]
    constructor
    · intro h
      have h2 := (hst1.mp h).2
      omega
    · intro h
      exact hst1.mpr ⟨by omega, by omega⟩
  · constructor
    · intro h
      have h2 := (hst1.mp h).2
      rw [Option.isSome_iff_ne_none]
      intro hn
      rcases hca1.mp hn with h3 | h3
      · omega
      · omega
    · intro h
      apply hst1.mpr
      refine ⟨by omega, ?_⟩
      by_contra hlt
      push_neg at hlt
      rw [Option.isSome_iff_ne_none] at h
      exact h (hca1.mpr (Or.inr hlt))
  · intro h
    have h2 := (hst0.mp h).2
    exact hst1.mpr ⟨by omega, by omega⟩

/-- Witness for C3: a three-identifier batch completed by its single chunk
with two successes and one failure. -/
theorem c3_witness :
    (∀ r ∈ ([{ chunk := ["a", "b", "c"], outcomes := [true, false, true] }] :
        List Bulk.ChunkRun), r.outcomes.length = r.chunk.length) ∧
    (([{ chunk := ["a", "b", "c"], outcomes := [true, false, true] }] :
        List Bulk.ChunkRun).map (fun r => r.chunk)).Perm
      (Bulk.chunkArray ["a", "b", "c"] 50) ∧
    (0 : Nat) < 1 ∧
    Bulk.c3Statement ["a", "b", "c"]
      [{ chunk := ["a", "b", "c"], outcomes := [true, false, true] }] 0 :=
  ⟨by decide, by decide, by decide,
    c3_progress_invariants _ _ (by decide) (by decide) 0 (by decide)⟩
